import Mathlib

/-!
Shallow embedding of the resumable parallel fetch pipeline of `mind-search`
(`src/download_pages.rs`), together with proofs of the specified properties.

The embedding models:
* the data model (`FirefoxHistoryItem`, `DownloadedPage`, `DownloadedPageContent`);
* the fetch classification (`try_download_page`, `download_page`), with the
  reqwest layer modelled as an oracle (`SendOutcome`): the outcome of
  `Client::get(url).send()` is either a transport-level error or a response
  carrying a status code, an optional readable `Content-Type` header value,
  and the result of reading the body as text;
* the worker loop (`download_pages_thread`, `write_downloaded_pages`) as an
  executable small-step interpreter over a pipeline state shared by all
  workers, driven by an explicit interleaving schedule;
* the driver (`download_pages`): startup scan of existing bundles, queue
  construction, spawning/joining of P workers, error propagation.

Effects (clock reads, bundle writes, HTTP client construction, network
answers) are supplied by an environment `RunEnv`, so every definition is
executable on concrete inputs.
-/

namespace MindSearch

/-- Mirror of `FirefoxHistoryItem` (src/main.rs): a fetch target. -/
structure FirefoxHistoryItem where
  url : String
  title : Option String
  last_visit : Option Int
deriving Repr, DecidableEq

/-- Mirror of the enum `DownloadedPageContent` (src/main.rs). -/
inductive DownloadedPageContent where
  | Failure (reason : String)
  | Html (content : String)
deriving Repr, DecidableEq

/-- Mirror of `DownloadedPage` (src/main.rs): one fetch result.
`loaded_at` is the `Utc::now()` timestamp, modelled as an integer. -/
structure DownloadedPage where
  url : String
  loaded_at : Int
  content : DownloadedPageContent
deriving Repr, DecidableEq

deriving instance DecidableEq for Except

/-- Model of a completed `reqwest::blocking::Response` as observed by
`try_download_page`: the final status code, the `Content-Type` header value
(`none` when the header is absent or not readable as a string, folding
`headers().get(..)` and `to_str().ok()` into one option), and the result of
`Response::text()` (reading the body can itself fail mid-stream). -/
structure HttpResponse where
  status : Nat
  content_type : Option String
  body : Except String String
deriving Repr, DecidableEq

/-- Model of `http_client.get(url).send()`: either a transport-level error
(timeout, DNS failure, connection reset, TLS error, ...) carrying reqwest's
error message, or a response. -/
inductive SendOutcome where
  | error (message : String)
  | response (resp : HttpResponse)
deriving Repr, DecidableEq

/-- The error message produced by reqwest's `Response::error_for_status` for
a client- or server-error status (as in `"HTTP status client error (404 Not
Found) for url (..)"`); modelled as a non-empty string naming the status. -/
def statusErrorMessage (status : Nat) : String :=
  "HTTP status error " ++ toString status

/-- Model of reqwest's `Response::error_for_status`: it returns an error
exactly when the status is a client error (4xx) or a server error (5xx);
1xx, 2xx and 3xx responses pass through unchanged. -/
def error_for_status (resp : HttpResponse) : Except String HttpResponse :=
  if 400 ≤ resp.status ∧ resp.status ≤ 599 then
    Except.error (statusErrorMessage resp.status)
  else
    Except.ok resp

/-- Model of Rust's `str::starts_with` on strings, as prefix of the
character sequence. -/
def starts_with (s p : String) : Bool :=
  p.data.isPrefixOf s.data

/-- The content-type test of `try_download_page` (src/download_pages.rs,
lines 136-141): the header value must start with `"text/html"`;
a missing or unreadable header counts as not HTML (`unwrap_or(false)`). -/
def is_html (content_type : Option String) : Bool :=
  (content_type.map (fun value => starts_with value "text/html")).getD false

/-- Mirror of `try_download_page` (src/download_pages.rs, lines 133-151).
`?` on `send()` and `error_for_status()` propagates transport and 4xx/5xx
status errors; a non-HTML content type yields `Failure("Page is not HTML")`;
otherwise the body is read (`text()?`) and wrapped in `Html`. -/
def try_download_page (outcome : SendOutcome) : Except String DownloadedPageContent :=
  match outcome with
  | SendOutcome.error message => Except.error message
  | SendOutcome.response resp =>
    match error_for_status resp with
    | Except.error e => Except.error e
    | Except.ok response =>
      if is_html response.content_type then
        match response.body with
        | Except.error e => Except.error e
        | Except.ok content => Except.ok (DownloadedPageContent.Html content)
      else
        Except.ok (DownloadedPageContent.Failure "Page is not HTML")

/-- Mirror of `download_page` (src/download_pages.rs, lines 120-131): any
error from `try_download_page` is absorbed into a `Failure` carrying the
error's message; the result records the url and the fetch timestamp. -/
def download_page (now : Int) (url : String) (outcome : SendOutcome) : DownloadedPage :=
  let content :=
    match try_download_page outcome with
    | Except.ok content => content
    | Except.error error => DownloadedPageContent.Failure error
  { url := url, loaded_at := now, content := content }

example :
    download_page 0 "u" (SendOutcome.response ⟨404, some "text/html", Except.ok "x"⟩)
      = ⟨"u", 0, DownloadedPageContent.Failure (statusErrorMessage 404)⟩ := by rfl

example :
    download_page 0 "u" (SendOutcome.response ⟨200, some "text/html; charset=utf-8", Except.ok "x"⟩)
      = ⟨"u", 0, DownloadedPageContent.Html "x"⟩ := by decide

example :
    download_page 0 "u" (SendOutcome.response ⟨304, some "text/html", Except.ok "hello"⟩)
      = ⟨"u", 0, DownloadedPageContent.Html "hello"⟩ := by decide

example :
    download_page 0 "u" (SendOutcome.response ⟨200, some "application/json", Except.ok "x"⟩)
      = ⟨"u", 0, DownloadedPageContent.Failure "Page is not HTML"⟩ := by decide

example :
    download_page 0 "u" (SendOutcome.error "connection reset")
      = ⟨"u", 0, DownloadedPageContent.Failure "connection reset"⟩ := by rfl

/-! ## Pipeline state machine -/

/-- One bundle file: its name (the `Utc::now().timestamp_nanos()` value used
in `format!("{}/{}", RAW_PAGES_DIR_PATH, timestamp)`) and the serialized
pages, in the order they sat in the worker's accumulator. -/
structure Bundle where
  name : Int
  pages : List DownloadedPage
deriving Repr, DecidableEq

/-- Control state of one worker thread running `download_pages_thread`. -/
inductive WorkerPhase where
  | running
  | finished
  | errored (message : String)
deriving Repr, DecidableEq

/-- One worker thread's local state: the private `downloaded_pages`
accumulator and its control phase. -/
structure WorkerState where
  acc : List DownloadedPage
  phase : WorkerPhase
deriving Repr, DecidableEq

/-- The shared state of one run of the pipeline:
* `queue`: the mutex-protected `history_queue` `Vec` (popped from the end);
* `workers`: the states of the spawned threads;
* `store`: the bundle files written so far during this run, in write order;
* `clockReads`: how many times `Utc::now()` has been consulted so far;
* `popped`: how many targets have been popped (with a value) from the queue. -/
structure PipelineState where
  queue : List FirefoxHistoryItem
  workers : List WorkerState
  store : List Bundle
  clockReads : Nat
  popped : Nat
deriving Repr, DecidableEq

/-- The environment supplying all effects of a run:
* `fetch url`: the outcome of `http_client.get(url).send()` (each url is
  fetched at most once per run, so indexing by url is fully general);
* `clientBuild i`: `some msg` when worker `i`'s
  `Client::builder().timeout(timeout).build()` fails with message `msg`;
* `writeFail n`: `some msg` when the `write_compressed_json` call of the
  flush whose clock read has index `n` fails with message `msg`;
* `clock n`: the value returned by the `n`-th `Utc::now()` call of the run. -/
structure RunEnv where
  fetch : String → SendOutcome
  clientBuild : Nat → Option String
  writeFail : Nat → Option String
  clock : Nat → Int

/-- Mirror of the inner `write_downloaded_pages` (src/download_pages.rs,
lines 76-86), acting on the worker's accumulator and the shared store.
When the accumulator is empty nothing happens at all (no clock read, no
file). Otherwise one `Utc::now()` timestamp names a new file; if the write
fails the error is returned and the accumulator is NOT cleared (the `?`
fires before `clear()`); on success the accumulator is serialized as one
new bundle and cleared. Returns (result, accumulator, store, clock count). -/
def write_downloaded_pages (env : RunEnv) (acc : List DownloadedPage)
    (store : List Bundle) (clockReads : Nat) :
    Except String Unit × List DownloadedPage × List Bundle × Nat :=
  if acc.isEmpty then
    (Except.ok (), acc, store, clockReads)
  else
    let timestamp := env.clock clockReads
    match env.writeFail clockReads with
    | some e => (Except.error e, acc, store, clockReads + 1)
    | none => (Except.ok (), [], store ++ [⟨timestamp, acc⟩], clockReads + 1)

/-- One iteration of the loop of `download_pages_thread`
(src/download_pages.rs, lines 88-117) by worker `i`, as one atomic step of
the interleaving semantics. If `i` is not a running worker the state is
unchanged. Otherwise the worker pops the last element of the shared queue
(`Vec::pop`); on `None` it breaks out of the loop and performs the final
`write_downloaded_pages` (becoming `finished`, or `errored` if that flush
fails); on `Some item` it downloads the page (one clock read for
`loaded_at`), pushes the result onto its accumulator and, when the
accumulator has reached `bundle_size`, flushes it. -/
def workerStep (env : RunEnv) (bundle_size : Nat) (i : Nat)
    (s : PipelineState) : PipelineState :=
  match s.workers[i]? with
  | none => s
  | some w =>
    match w.phase with
    | WorkerPhase.finished => s
    | WorkerPhase.errored _ => s
    | WorkerPhase.running =>
      match s.queue.getLast? with
      | none =>
        let (r, acc, store, cr) := write_downloaded_pages env w.acc s.store s.clockReads
        let phase := match r with
          | Except.ok _ => WorkerPhase.finished
          | Except.error e => WorkerPhase.errored e
        { s with workers := s.workers.set i ⟨acc, phase⟩, store := store, clockReads := cr }
      | some item =>
        let queue := s.queue.dropLast
        let now := env.clock s.clockReads
        let page := download_page now item.url (env.fetch item.url)
        let acc := w.acc ++ [page]
        if bundle_size ≤ acc.length then
          let (r, acc2, store, cr) := write_downloaded_pages env acc s.store (s.clockReads + 1)
          let phase := match r with
            | Except.ok _ => WorkerPhase.running
            | Except.error e => WorkerPhase.errored e
          { queue := queue, workers := s.workers.set i ⟨acc2, phase⟩,
            store := store, clockReads := cr, popped := s.popped + 1 }
        else
          { queue := queue, workers := s.workers.set i ⟨acc, WorkerPhase.running⟩,
            store := s.store, clockReads := s.clockReads + 1, popped := s.popped + 1 }

/-- The state a worker thread is in right after starting: building the HTTP
client (src/download_pages.rs, line 73) either succeeds, leaving the worker
running with an empty accumulator, or fails, making the worker exit with
that error before ever touching the queue. -/
def initWorker (env : RunEnv) (i : Nat) : WorkerState :=
  match env.clientBuild i with
  | some e => ⟨[], WorkerPhase.errored e⟩
  | none => ⟨[], WorkerPhase.running⟩

/-- The pipeline state right after `download_pages` spawned its
`parallelism` workers on a freshly built queue. -/
def initState (env : RunEnv) (parallelism : Nat)
    (queue : List FirefoxHistoryItem) : PipelineState :=
  ⟨queue, (List.range parallelism).map (initWorker env), [], 0, 0⟩

/-- Run the worker pool under an explicit interleaving `schedule`: each
entry names the worker that performs the next loop iteration. Quantifying
over all schedules captures all interleavings of the worker threads. -/
def run_pipeline (env : RunEnv) (bundle_size parallelism : Nat)
    (schedule : List Nat) (queue : List FirefoxHistoryItem) : PipelineState :=
  schedule.foldl (fun s i => workerStep env bundle_size i s) (initState env parallelism queue)

/-- A state in which every worker has left its loop (successfully or not);
with at least one worker this is exactly a completed `thread::scope`. -/
def allDone (s : PipelineState) : Prop :=
  ∀ w ∈ s.workers, w.phase ≠ WorkerPhase.running

/-- A state in which every worker returned `Ok(())`: a successful run. -/
def allFinished (s : PipelineState) : Prop :=
  ∀ w ∈ s.workers, w.phase = WorkerPhase.finished

instance (s : PipelineState) : Decidable (allFinished s) := by
  unfold allFinished; infer_instance

/-- Mirror of the join loop of `download_pages` (src/download_pages.rs,
lines 56-59): threads are joined in spawn order and `?` propagates the
error of the first (in that order) worker that returned one. -/
def driver_result : List WorkerState → Except String Unit
  | [] => Except.ok ()
  | w :: rest =>
    match w.phase with
    | WorkerPhase.errored e => Except.error e
    | _ => driver_result rest

/-- The `HashSet::insert` of the startup scan (src/download_pages.rs,
line 29), modelled on a duplicate-free list. -/
def insert_url (urls : List String) (url : String) : List String :=
  if url ∈ urls then urls else urls ++ [url]

/-- Mirror of the startup scan of `download_pages` (src/download_pages.rs,
lines 21-33): every existing bundle is read and parsed
(`read_compressed_json`), the urls of its pages are inserted into one
shared set, and any single read/parse error is fatal to the whole scan
(`try_for_each` + `?`). The input is the list of per-bundle read results. -/
def scan_bundles : List (Except String (List DownloadedPage)) → Except String (List String)
  | [] => Except.ok []
  | read :: rest =>
    match read with
    | Except.error e => Except.error e
    | Except.ok pages =>
      match scan_bundles rest with
      | Except.error e => Except.error e
      | Except.ok urls => Except.ok (pages.foldl (fun acc page => insert_url acc page.url) urls)

/-- What one invocation of `download_pages` produced: its `anyhow::Result`
and, when the pipeline was actually started, the final shared state
(`none` means the run aborted during setup, before any worker was spawned,
so no queue was built, nothing was popped and no bundle was written). -/
structure RunReport where
  result : Except String Unit
  final : Option PipelineState
deriving Repr, DecidableEq

/-- Mirror of `download_pages` (src/download_pages.rs, lines 15-65):
scan the existing bundles (any failure aborts everything, `?` on line 32),
read the history snapshot (`?` on line 40), keep only the targets whose
url is not already downloaded (`retain`, line 42), then spawn `parallelism`
workers on the resulting queue, run them to the given interleaving, and
join them in spawn order, propagating the first error. -/
def download_pages (bundleReads : List (Except String (List DownloadedPage)))
    (historyRead : Except String (List FirefoxHistoryItem))
    (env : RunEnv) (parallelism bundle_size : Nat) (schedule : List Nat) : RunReport :=
  match scan_bundles bundleReads with
  | Except.error e => ⟨Except.error e, none⟩
  | Except.ok downloaded_urls =>
    match historyRead with
    | Except.error e => ⟨Except.error e, none⟩
    | Except.ok history =>
      let queue := history.filter (fun item => !(downloaded_urls.contains item.url))
      let final := run_pipeline env bundle_size parallelism schedule queue
      ⟨driver_result final.workers, some final⟩

/-! ## URL accounting -/

/-- The multiset of urls of a list of fetch results. -/
def pageUrls (pages : List DownloadedPage) : Multiset String :=
  ↑(pages.map DownloadedPage.url)

/-- The multiset of urls buffered in one worker's accumulator. -/
def workerUrls (w : WorkerState) : Multiset String :=
  pageUrls w.acc

/-- The multiset of urls buffered across all workers. -/
def accUrls (ws : List WorkerState) : Multiset String :=
  (ws.map workerUrls).sum

/-- The multiset of urls across all bundles of a store. -/
def storeUrls (store : List Bundle) : Multiset String :=
  (store.map (fun b => pageUrls b.pages)).sum

/-- The multiset of urls tracked anywhere in the pipeline: still queued,
buffered in some worker's accumulator, or flushed into a bundle. -/
def stateUrls (s : PipelineState) : Multiset String :=
  ↑(s.queue.map FirefoxHistoryItem.url) + accUrls s.workers + storeUrls s.store

/-! ## Generic helper lemmas -/

theorem foldl_preserve {σ ι : Type _} (f : σ → ι → σ) (P : σ → Prop)
    (hstep : ∀ s i, P s → P (f s i)) :
    ∀ (l : List ι) (s : σ), P s → P (l.foldl f s)
  | [], _, h => h
  | i :: rest, s, h => foldl_preserve f P hstep rest (f s i) (hstep s i h)

theorem sum_map_set_add {α : Type _} {M : Type _} [AddCommMonoid M] (f : α → M) :
    ∀ (l : List α) (i : Nat) (a a' : α), l[i]? = some a →
      ((l.set i a').map f).sum + f a = (l.map f).sum + f a'
  | [], i, a, a', h => by simp at h
  | x :: xs, 0, a, a', h => by
    simp only [List.getElem?_cons_zero, Option.some.injEq] at h
    subst h
    simp only [List.set_cons_zero, List.map_cons, List.sum_cons]
    abel
  | x :: xs, i + 1, a, a', h => by
    simp only [List.getElem?_cons_succ] at h
    simp only [List.set_cons_succ, List.map_cons, List.sum_cons]
    rw [add_assoc, sum_map_set_add f xs i a a' h, ← add_assoc]

theorem getLast?_decomp {α : Type _} {l : List α} {a : α} (h : l.getLast? = some a) :
    l = l.dropLast ++ [a] := by
  induction l using List.reverseRecOn with
  | nil => simp at h
  | append_singleton xs x _ =>
    rw [List.getLast?_concat] at h
    cases h
    rw [List.dropLast_concat]

/-! ## Branch lemmas for `workerStep` -/

section BranchLemmas

variable {env : RunEnv} {bundle_size i : Nat} {s : PipelineState} {w : WorkerState}

theorem workerStep_no_worker (h : s.workers[i]? = none) :
    workerStep env bundle_size i s = s := by
  simp only [workerStep, h]

theorem workerStep_finished (h : s.workers[i]? = some w)
    (hp : w.phase = WorkerPhase.finished) :
    workerStep env bundle_size i s = s := by
  simp only [workerStep, h, hp]

theorem workerStep_errored {e : String} (h : s.workers[i]? = some w)
    (hp : w.phase = WorkerPhase.errored e) :
    workerStep env bundle_size i s = s := by
  simp only [workerStep, h, hp]

theorem workerStep_exit_empty_acc (h : s.workers[i]? = some w)
    (hp : w.phase = WorkerPhase.running) (hq : s.queue.getLast? = none)
    (hacc : w.acc = []) :
    workerStep env bundle_size i s =
      { s with workers := s.workers.set i ⟨[], WorkerPhase.finished⟩ } := by
  simp only [workerStep, h, hp, hq]
  simp [write_downloaded_pages, hacc]

theorem workerStep_exit_flush_ok (h : s.workers[i]? = some w)
    (hp : w.phase = WorkerPhase.running) (hq : s.queue.getLast? = none)
    (hacc : ¬w.acc = []) (hwf : env.writeFail s.clockReads = none) :
    workerStep env bundle_size i s =
      { s with workers := s.workers.set i ⟨[], WorkerPhase.finished⟩,
               store := s.store ++ [⟨env.clock s.clockReads, w.acc⟩],
               clockReads := s.clockReads + 1 } := by
  simp only [workerStep, h, hp, hq]
  simp [write_downloaded_pages, hacc, hwf]

theorem workerStep_exit_flush_fail {e : String} (h : s.workers[i]? = some w)
    (hp : w.phase = WorkerPhase.running) (hq : s.queue.getLast? = none)
    (hacc : ¬w.acc = []) (hwf : env.writeFail s.clockReads = some e) :
    workerStep env bundle_size i s =
      { s with workers := s.workers.set i ⟨w.acc, WorkerPhase.errored e⟩,
               clockReads := s.clockReads + 1 } := by
  simp only [workerStep, h, hp, hq]
  simp [write_downloaded_pages, hacc, hwf]

/-- The fetch result produced when worker `i` pops `item` at clock index `n`. -/
def poppedPage (env : RunEnv) (n : Nat) (item : FirefoxHistoryItem) : DownloadedPage :=
  download_page (env.clock n) item.url (env.fetch item.url)

theorem workerStep_pop_noflush {item : FirefoxHistoryItem}
    (h : s.workers[i]? = some w) (hp : w.phase = WorkerPhase.running)
    (hq : s.queue.getLast? = some item)
    (hlen : ¬bundle_size ≤ w.acc.length + 1) :
    workerStep env bundle_size i s =
      ⟨s.queue.dropLast,
       s.workers.set i ⟨w.acc ++ [poppedPage env s.clockReads item], WorkerPhase.running⟩,
       s.store, s.clockReads + 1, s.popped + 1⟩ := by
  simp only [workerStep, h, hp, hq]
  simp [poppedPage, hlen]

theorem workerStep_pop_flush_ok {item : FirefoxHistoryItem}
    (h : s.workers[i]? = some w) (hp : w.phase = WorkerPhase.running)
    (hq : s.queue.getLast? = some item)
    (hlen : bundle_size ≤ w.acc.length + 1)
    (hwf : env.writeFail (s.clockReads + 1) = none) :
    workerStep env bundle_size i s =
      ⟨s.queue.dropLast,
       s.workers.set i ⟨[], WorkerPhase.running⟩,
       s.store ++ [⟨env.clock (s.clockReads + 1),
                    w.acc ++ [poppedPage env s.clockReads item]⟩],
       s.clockReads + 2, s.popped + 1⟩ := by
  simp only [workerStep, h, hp, hq]
  simp [poppedPage, hlen, write_downloaded_pages, hwf]

theorem workerStep_pop_flush_fail {item : FirefoxHistoryItem} {e : String}
    (h : s.workers[i]? = some w) (hp : w.phase = WorkerPhase.running)
    (hq : s.queue.getLast? = some item)
    (hlen : bundle_size ≤ w.acc.length + 1)
    (hwf : env.writeFail (s.clockReads + 1) = some e) :
    workerStep env bundle_size i s =
      ⟨s.queue.dropLast,
       s.workers.set i ⟨w.acc ++ [poppedPage env s.clockReads item], WorkerPhase.errored e⟩,
       s.store, s.clockReads + 2, s.popped + 1⟩ := by
  simp only [workerStep, h, hp, hq]
  simp [poppedPage, hlen, write_downloaded_pages, hwf]

end BranchLemmas

/-! ## Conservation of urls -/

theorem pageUrls_nil : pageUrls [] = 0 := rfl

theorem pageUrls_append (l1 l2 : List DownloadedPage) :
    pageUrls (l1 ++ l2) = pageUrls l1 + pageUrls l2 := by
  simp [pageUrls]

theorem pageUrls_singleton (p : DownloadedPage) : pageUrls [p] = {p.url} := by
  simp [pageUrls]

theorem workerUrls_mk (acc : List DownloadedPage) (ph : WorkerPhase) :
    workerUrls ⟨acc, ph⟩ = pageUrls acc := rfl

theorem storeUrls_snoc (st : List Bundle) (b : Bundle) :
    storeUrls (st ++ [b]) = storeUrls st + pageUrls b.pages := by
  simp [storeUrls]

theorem poppedPage_url (env : RunEnv) (n : Nat) (item : FirefoxHistoryItem) :
    (poppedPage env n item).url = item.url := rfl

theorem initWorker_acc (env : RunEnv) (i : Nat) : (initWorker env i).acc = [] := by
  unfold initWorker
  cases env.clientBuild i <;> rfl

theorem accUrls_init (env : RunEnv) (parallelism : Nat) :
    accUrls ((List.range parallelism).map (initWorker env)) = 0 := by
  apply List.sum_eq_zero
  intro x hx
  simp only [List.map_map, List.mem_map] at hx
  obtain ⟨j, _, rfl⟩ := hx
  simp [Function.comp, workerUrls, initWorker_acc, pageUrls]

theorem accUrls_set (ws : List WorkerState) (i : Nat) (w : WorkerState)
    (a : List DownloadedPage) (ph : WorkerPhase) (h : ws[i]? = some w) :
    accUrls (ws.set i ⟨a, ph⟩) + pageUrls w.acc = accUrls ws + pageUrls a := by
  have key := sum_map_set_add workerUrls ws i w ⟨a, ph⟩ h
  simp only [workerUrls] at key
  exact key

/-- One worker step neither loses nor duplicates a url: the multiset of urls
across the queue, all accumulators and all flushed bundles is unchanged. -/
theorem stateUrls_step (env : RunEnv) (bundle_size i : Nat) (s : PipelineState) :
    stateUrls (workerStep env bundle_size i s) = stateUrls s := by
  cases hw : s.workers[i]? with
  | none => rw [workerStep_no_worker hw]
  | some w =>
    cases hp : w.phase with
    | finished => rw [workerStep_finished hw hp]
    | errored e => rw [workerStep_errored hw hp]
    | running =>
      cases hq : s.queue.getLast? with
      | none =>
        by_cases hacc : w.acc = []
        · rw [workerStep_exit_empty_acc hw hp hq hacc]
          have key := accUrls_set s.workers i w [] WorkerPhase.finished hw
          rw [hacc] at key
          simp only [add_right_cancel_iff] at key
          simp only [stateUrls]
          rw [key]
        · cases hwf : env.writeFail s.clockReads with
          | none =>
            rw [workerStep_exit_flush_ok hw hp hq hacc hwf]
            have key := accUrls_set s.workers i w [] WorkerPhase.finished hw
            rw [pageUrls_nil, add_zero] at key
            simp only [stateUrls, storeUrls_snoc]
            rw [← key]
            abel
          | some e =>
            rw [workerStep_exit_flush_fail hw hp hq hacc hwf]
            have key := accUrls_set s.workers i w w.acc (WorkerPhase.errored e) hw
            simp only [add_right_cancel_iff] at key
            simp only [stateUrls]
            rw [key]
      | some item =>
        have hdec : s.queue = s.queue.dropLast ++ [item] := getLast?_decomp hq
        have hqurls : (↑(s.queue.map FirefoxHistoryItem.url) : Multiset String)
            = ↑(s.queue.dropLast.map FirefoxHistoryItem.url) + {item.url} := by
          conv_lhs => rw [hdec]
          rw [List.map_append, List.map_singleton, ← Multiset.coe_add, Multiset.coe_singleton]
        by_cases hlen : bundle_size ≤ w.acc.length + 1
        · cases hwf : env.writeFail (s.clockReads + 1) with
          | none =>
            rw [workerStep_pop_flush_ok hw hp hq hlen hwf]
            have key := accUrls_set s.workers i w [] WorkerPhase.running hw
            rw [pageUrls_nil, add_zero] at key
            simp only [stateUrls, storeUrls_snoc, pageUrls_append, pageUrls_singleton,
              poppedPage_url]
            rw [hqurls, ← key]
            abel
          | some e =>
            rw [workerStep_pop_flush_fail hw hp hq hlen hwf]
            have key := accUrls_set s.workers i w
              (w.acc ++ [poppedPage env s.clockReads item]) (WorkerPhase.errored e) hw
            rw [pageUrls_append, pageUrls_singleton, poppedPage_url] at key
            simp only [stateUrls]
            rw [hqurls]
            apply add_right_cancel (b := pageUrls w.acc)
            calc ↑(s.queue.dropLast.map FirefoxHistoryItem.url)
                  + accUrls (s.workers.set i
                      ⟨w.acc ++ [poppedPage env s.clockReads item], WorkerPhase.errored e⟩)
                  + storeUrls s.store + pageUrls w.acc
                = ↑(s.queue.dropLast.map FirefoxHistoryItem.url) + storeUrls s.store
                  + (accUrls (s.workers.set i
                      ⟨w.acc ++ [poppedPage env s.clockReads item], WorkerPhase.errored e⟩)
                     + pageUrls w.acc) := by abel
              _ = ↑(s.queue.dropLast.map FirefoxHistoryItem.url) + storeUrls s.store
                  + (accUrls s.workers + (pageUrls w.acc + {item.url})) := by rw [key]
              _ = ↑(s.queue.dropLast.map FirefoxHistoryItem.url) + {item.url}
                  + accUrls s.workers + storeUrls s.store + pageUrls w.acc := by abel
        · rw [workerStep_pop_noflush hw hp hq hlen]
          have key := accUrls_set s.workers i w
            (w.acc ++ [poppedPage env s.clockReads item]) WorkerPhase.running hw
          rw [pageUrls_append, pageUrls_singleton, poppedPage_url] at key
          simp only [stateUrls]
          rw [hqurls]
          apply add_right_cancel (b := pageUrls w.acc)
          calc ↑(s.queue.dropLast.map FirefoxHistoryItem.url)
                + accUrls (s.workers.set i
                    ⟨w.acc ++ [poppedPage env s.clockReads item], WorkerPhase.running⟩)
                + storeUrls s.store + pageUrls w.acc
              = ↑(s.queue.dropLast.map FirefoxHistoryItem.url) + storeUrls s.store
                + (accUrls (s.workers.set i
                    ⟨w.acc ++ [poppedPage env s.clockReads item], WorkerPhase.running⟩)
                   + pageUrls w.acc) := by abel
            _ = ↑(s.queue.dropLast.map FirefoxHistoryItem.url) + storeUrls s.store
                + (accUrls s.workers + (pageUrls w.acc + {item.url})) := by rw [key]
            _ = ↑(s.queue.dropLast.map FirefoxHistoryItem.url) + {item.url}
                + accUrls s.workers + storeUrls s.store + pageUrls w.acc := by abel

/-! ## Case eliminator for `workerStep` -/

/-- Establish a property of `workerStep env bundle_size i s` by handling its
seven reachable outcomes: no-op, exit with empty accumulator, final flush
(success/failure), and pop followed by no flush / successful flush / failed
flush. -/
theorem workerStep_elim (env : RunEnv) (bundle_size i : Nat) (s : PipelineState)
    (P : PipelineState → Prop)
    (hid : P s)
    (hexit0 : ∀ w, s.workers[i]? = some w → w.phase = WorkerPhase.running →
      s.queue = [] → w.acc = [] →
      P { s with workers := s.workers.set i ⟨[], WorkerPhase.finished⟩ })
    (hexit1 : ∀ w, s.workers[i]? = some w → w.phase = WorkerPhase.running →
      s.queue = [] → ¬w.acc = [] → env.writeFail s.clockReads = none →
      P { s with workers := s.workers.set i ⟨[], WorkerPhase.finished⟩,
                 store := s.store ++ [⟨env.clock s.clockReads, w.acc⟩],
                 clockReads := s.clockReads + 1 })
    (hexit2 : ∀ w e, s.workers[i]? = some w → w.phase = WorkerPhase.running →
      s.queue = [] → ¬w.acc = [] → env.writeFail s.clockReads = some e →
      P { s with workers := s.workers.set i ⟨w.acc, WorkerPhase.errored e⟩,
                 clockReads := s.clockReads + 1 })
    (hpop0 : ∀ w item, s.workers[i]? = some w → w.phase = WorkerPhase.running →
      s.queue.getLast? = some item → ¬bundle_size ≤ w.acc.length + 1 →
      P ⟨s.queue.dropLast,
         s.workers.set i ⟨w.acc ++ [poppedPage env s.clockReads item], WorkerPhase.running⟩,
         s.store, s.clockReads + 1, s.popped + 1⟩)
    (hpop1 : ∀ w item, s.workers[i]? = some w → w.phase = WorkerPhase.running →
      s.queue.getLast? = some item → bundle_size ≤ w.acc.length + 1 →
      env.writeFail (s.clockReads + 1) = none →
      P ⟨s.queue.dropLast,
         s.workers.set i ⟨[], WorkerPhase.running⟩,
         s.store ++ [⟨env.clock (s.clockReads + 1),
                      w.acc ++ [poppedPage env s.clockReads item]⟩],
         s.clockReads + 2, s.popped + 1⟩)
    (hpop2 : ∀ w item e, s.workers[i]? = some w → w.phase = WorkerPhase.running →
      s.queue.getLast? = some item → bundle_size ≤ w.acc.length + 1 →
      env.writeFail (s.clockReads + 1) = some e →
      P ⟨s.queue.dropLast,
         s.workers.set i ⟨w.acc ++ [poppedPage env s.clockReads item], WorkerPhase.errored e⟩,
         s.store, s.clockReads + 2, s.popped + 1⟩) :
    P (workerStep env bundle_size i s) := by
  cases hw : s.workers[i]? with
  | none => rw [workerStep_no_worker hw]; exact hid
  | some w =>
    cases hp : w.phase with
    | finished => rw [workerStep_finished hw hp]; exact hid
    | errored e => rw [workerStep_errored hw hp]; exact hid
    | running =>
      cases hq : s.queue.getLast? with
      | none =>
        have hqnil : s.queue = [] := List.getLast?_eq_none_iff.mp hq
        by_cases hacc : w.acc = []
        · rw [workerStep_exit_empty_acc hw hp hq hacc]
          exact hexit0 w hw hp hqnil hacc
        · cases hwf : env.writeFail s.clockReads with
          | none =>
            rw [workerStep_exit_flush_ok hw hp hq hacc hwf]
            exact hexit1 w hw hp hqnil hacc hwf
          | some e =>
            rw [workerStep_exit_flush_fail hw hp hq hacc hwf]
            exact hexit2 w e hw hp hqnil hacc hwf
      | some item =>
        by_cases hlen : bundle_size ≤ w.acc.length + 1
        · cases hwf : env.writeFail (s.clockReads + 1) with
          | none =>
            rw [workerStep_pop_flush_ok hw hp hq hlen hwf]
            exact hpop1 w item hw hp hq hlen hwf
          | some e =>
            rw [workerStep_pop_flush_fail hw hp hq hlen hwf]
            exact hpop2 w item e hw hp hq hlen hwf
        · rw [workerStep_pop_noflush hw hp hq hlen]
          exact hpop0 w item hw hp hq hlen

/-! ## Run-level lemmas -/

theorem stateUrls_init (env : RunEnv) (parallelism : Nat) (q0 : List FirefoxHistoryItem) :
    stateUrls (initState env parallelism q0) = ↑(q0.map FirefoxHistoryItem.url) := by
  simp only [stateUrls, initState]
  rw [accUrls_init]
  simp [storeUrls]

/-- Conservation over a whole run: whatever the interleaving, the urls in
the queue, the accumulators and the flushed bundles always add up to the
urls of the initial queue. -/
theorem stateUrls_run (env : RunEnv) (bundle_size parallelism : Nat)
    (schedule : List Nat) (q0 : List FirefoxHistoryItem) :
    stateUrls (run_pipeline env bundle_size parallelism schedule q0)
      = ↑(q0.map FirefoxHistoryItem.url) :=
  foldl_preserve _ (fun s => stateUrls s = ↑(q0.map FirefoxHistoryItem.url))
    (fun s i h => by simp only []; rw [stateUrls_step]; exact h)
    schedule _ (stateUrls_init env parallelism q0)

/-- The invariant transport along a schedule, specialized to `run_pipeline`. -/
theorem run_preserve (env : RunEnv) (bundle_size parallelism : Nat)
    (schedule : List Nat) (q0 : List FirefoxHistoryItem)
    (Q : PipelineState → Prop)
    (hstep : ∀ s i, Q s → Q (workerStep env bundle_size i s))
    (hinit : Q (initState env parallelism q0)) :
    Q (run_pipeline env bundle_size parallelism schedule q0) :=
  foldl_preserve _ Q hstep schedule _ hinit

theorem workers_length_step (env : RunEnv) (bundle_size i : Nat) (s : PipelineState) :
    (workerStep env bundle_size i s).workers.length = s.workers.length := by
  refine workerStep_elim env bundle_size i s
    (fun x => x.workers.length = s.workers.length) rfl ?_ ?_ ?_ ?_ ?_ ?_
  all_goals intros
  all_goals simp [List.length_set]

theorem workers_length_run (env : RunEnv) (bundle_size parallelism : Nat)
    (schedule : List Nat) (q0 : List FirefoxHistoryItem) :
    (run_pipeline env bundle_size parallelism schedule q0).workers.length = parallelism := by
  refine run_preserve env bundle_size parallelism schedule q0
    (fun s => s.workers.length = parallelism) ?_ ?_
  · intro s i h
    rw [workers_length_step]
    exact h
  · simp [initState]

/-- A worker that has `finished` did so with an empty accumulator, and once
some worker has `finished` the shared queue is (and stays) empty. -/
def ControlInv (s : PipelineState) : Prop :=
  (∀ w ∈ s.workers, w.phase = WorkerPhase.finished → w.acc = []) ∧
  ((∃ w ∈ s.workers, w.phase = WorkerPhase.finished) → s.queue = [])

theorem controlInv_step (env : RunEnv) (bundle_size i : Nat) (s : PipelineState)
    (h : ControlInv s) : ControlInv (workerStep env bundle_size i s) := by
  obtain ⟨h1, h2⟩ := h
  refine workerStep_elim env bundle_size i s ControlInv ⟨h1, h2⟩ ?_ ?_ ?_ ?_ ?_ ?_
  · intro w _ _ hqnil _
    constructor
    · intro w' hmem hfin
      rcases List.mem_or_eq_of_mem_set hmem with hold | rfl
      · exact h1 w' hold hfin
      · rfl
    · intro _
      exact hqnil
  · intro w _ _ hqnil _ _
    constructor
    · intro w' hmem hfin
      rcases List.mem_or_eq_of_mem_set hmem with hold | rfl
      · exact h1 w' hold hfin
      · rfl
    · intro _
      exact hqnil
  · intro w e _ _ hqnil _ _
    constructor
    · intro w' hmem hfin
      rcases List.mem_or_eq_of_mem_set hmem with hold | rfl
      · exact h1 w' hold hfin
      · cases hfin
    · intro _
      exact hqnil
  · intro w item _ _ hq _
    constructor
    · intro w' hmem hfin
      rcases List.mem_or_eq_of_mem_set hmem with hold | rfl
      · exact h1 w' hold hfin
      · cases hfin
    · intro hex
      exfalso
      obtain ⟨w', hmem, hfin⟩ := hex
      rcases List.mem_or_eq_of_mem_set hmem with hold | rfl
      · have := h2 ⟨w', hold, hfin⟩
        rw [this] at hq
        cases hq
      · cases hfin
  · intro w item _ _ hq _ _
    constructor
    · intro w' hmem hfin
      rcases List.mem_or_eq_of_mem_set hmem with hold | rfl
      · exact h1 w' hold hfin
      · cases hfin
    · intro hex
      exfalso
      obtain ⟨w', hmem, hfin⟩ := hex
      rcases List.mem_or_eq_of_mem_set hmem with hold | rfl
      · have := h2 ⟨w', hold, hfin⟩
        rw [this] at hq
        cases hq
      · cases hfin
  · intro w item e _ _ hq _ _
    constructor
    · intro w' hmem hfin
      rcases List.mem_or_eq_of_mem_set hmem with hold | rfl
      · exact h1 w' hold hfin
      · cases hfin
    · intro hex
      exfalso
      obtain ⟨w', hmem, hfin⟩ := hex
      rcases List.mem_or_eq_of_mem_set hmem with hold | rfl
      · have := h2 ⟨w', hold, hfin⟩
        rw [this] at hq
        cases hq
      · cases hfin

theorem initWorker_phase_ne_finished (env : RunEnv) (j : Nat) :
    (initWorker env j).phase ≠ WorkerPhase.finished := by
  unfold initWorker
  cases env.clientBuild j <;> simp

theorem controlInv_run (env : RunEnv) (bundle_size parallelism : Nat)
    (schedule : List Nat) (q0 : List FirefoxHistoryItem) :
    ControlInv (run_pipeline env bundle_size parallelism schedule q0) := by
  refine run_preserve env bundle_size parallelism schedule q0 ControlInv
    (fun s i h => controlInv_step env bundle_size i s h) ?_
  constructor
  · intro w hmem hfin
    simp only [initState, List.mem_map] at hmem
    obtain ⟨j, _, rfl⟩ := hmem
    exact absurd hfin (initWorker_phase_ne_finished env j)
  · intro hex
    exfalso
    obtain ⟨w, hmem, hfin⟩ := hex
    simp only [initState, List.mem_map] at hmem
    obtain ⟨j, _, rfl⟩ := hmem
    exact absurd hfin (initWorker_phase_ne_finished env j)

/-- In a completed successful run with at least one worker, the urls flushed
into bundles are exactly the urls of the initial queue, with multiplicity. -/
theorem run_store_urls (env : RunEnv) (bundle_size parallelism : Nat)
    (schedule : List Nat) (q0 : List FirefoxHistoryItem)
    (hP : 1 ≤ parallelism)
    (hdone : allFinished (run_pipeline env bundle_size parallelism schedule q0)) :
    storeUrls (run_pipeline env bundle_size parallelism schedule q0).store
      = ↑(q0.map FirefoxHistoryItem.url) := by
  set final := run_pipeline env bundle_size parallelism schedule q0 with hfinal
  obtain ⟨h1, h2⟩ := controlInv_run env bundle_size parallelism schedule q0
  rw [← hfinal] at h1 h2
  have hlen : final.workers.length = parallelism := by
    rw [hfinal]
    exact workers_length_run env bundle_size parallelism schedule q0
  have hne : final.workers ≠ [] := by
    intro hnil
    rw [hnil] at hlen
    simp at hlen
    omega
  obtain ⟨w0, hw0⟩ := List.exists_mem_of_ne_nil final.workers hne
  have hqnil : final.queue = [] := h2 ⟨w0, hw0, hdone w0 hw0⟩
  have haccs : accUrls final.workers = 0 := by
    apply List.sum_eq_zero
    intro x hx
    simp only [List.mem_map] at hx
    obtain ⟨w, hw, rfl⟩ := hx
    have : w.acc = [] := h1 w hw (hdone w hw)
    simp [workerUrls, this, pageUrls]
  have hcons : stateUrls final = ↑(q0.map FirefoxHistoryItem.url) := by
    rw [hfinal]
    exact stateUrls_run env bundle_size parallelism schedule q0
  rw [stateUrls, hqnil, haccs] at hcons
  simpa using hcons

/-! ## Runs over an empty queue are quiescent -/

/-- Nothing has happened and nothing can happen: empty queue, no bundle,
no clock read, no pop, all accumulators empty. -/
def QuiescentInv (s : PipelineState) : Prop :=
  s.queue = [] ∧ s.store = [] ∧ s.clockReads = 0 ∧ s.popped = 0 ∧
    ∀ w ∈ s.workers, w.acc = []

theorem quiescentInv_step (env : RunEnv) (bundle_size i : Nat) (s : PipelineState)
    (h : QuiescentInv s) : QuiescentInv (workerStep env bundle_size i s) := by
  obtain ⟨hq, hst, hcr, hpo, haccs⟩ := h
  refine workerStep_elim env bundle_size i s QuiescentInv ⟨hq, hst, hcr, hpo, haccs⟩
    ?_ ?_ ?_ ?_ ?_ ?_
  · intro w hw _ _ _
    refine ⟨hq, hst, hcr, hpo, ?_⟩
    intro w' hmem
    rcases List.mem_or_eq_of_mem_set hmem with hold | rfl
    · exact haccs w' hold
    · rfl
  · intro w hw _ _ hacc _
    exact absurd (haccs w (List.getElem?_mem hw)) hacc
  · intro w e hw _ _ hacc _
    exact absurd (haccs w (List.getElem?_mem hw)) hacc
  · intro w item hw _ hlast _
    rw [hq] at hlast
    cases hlast
  · intro w item hw _ hlast _ _
    rw [hq] at hlast
    cases hlast
  · intro w item e hw _ hlast _ _
    rw [hq] at hlast
    cases hlast

/-- Second-run scenario: started on an empty queue, the pipeline performs no
fetch, no clock read and writes no bundle, whatever the environment, the
parallelism and the interleaving. -/
theorem run_pipeline_empty_queue (env : RunEnv) (bundle_size parallelism : Nat)
    (schedule : List Nat) :
    QuiescentInv (run_pipeline env bundle_size parallelism schedule []) := by
  refine run_preserve env bundle_size parallelism schedule [] QuiescentInv
    (fun s i h => quiescentInv_step env bundle_size i s h) ?_
  refine ⟨rfl, rfl, rfl, rfl, ?_⟩
  intro w hmem
  simp only [initState, List.mem_map] at hmem
  obtain ⟨j, _, rfl⟩ := hmem
  exact initWorker_acc env j

/-! ## Bundle size bounds -/

/-- A running worker buffers strictly fewer than `bundle_size` results, and
every flushed bundle holds between 1 and `bundle_size` results. -/
def SizeInv (bundle_size : Nat) (s : PipelineState) : Prop :=
  (∀ w ∈ s.workers, w.phase = WorkerPhase.running → w.acc.length < bundle_size) ∧
  (∀ b ∈ s.store, 1 ≤ b.pages.length ∧ b.pages.length ≤ bundle_size)

theorem sizeInv_step (env : RunEnv) (bundle_size i : Nat) (s : PipelineState)
    (hbs : 1 ≤ bundle_size)
    (h : SizeInv bundle_size s) : SizeInv bundle_size (workerStep env bundle_size i s) := by
  obtain ⟨hworkers, hstore⟩ := h
  refine workerStep_elim env bundle_size i s (SizeInv bundle_size) ⟨hworkers, hstore⟩
    ?_ ?_ ?_ ?_ ?_ ?_
  · intro w hw hp _ _
    constructor
    · intro w' hmem hrun
      rcases List.mem_or_eq_of_mem_set hmem with hold | rfl
      · exact hworkers w' hold hrun
      · cases hrun
    · exact hstore
  · intro w hw hp _ hacc _
    constructor
    · intro w' hmem hrun
      rcases List.mem_or_eq_of_mem_set hmem with hold | rfl
      · exact hworkers w' hold hrun
      · cases hrun
    · intro b hb
      rcases List.mem_append.mp hb with hold | hnew
      · exact hstore b hold
      · rw [List.mem_singleton] at hnew
        subst hnew
        refine ⟨List.length_pos.mpr hacc, ?_⟩
        exact Nat.le_of_lt (hworkers w (List.getElem?_mem hw) hp)
  · intro w e hw hp _ _ _
    constructor
    · intro w' hmem hrun
      rcases List.mem_or_eq_of_mem_set hmem with hold | rfl
      · exact hworkers w' hold hrun
      · cases hrun
    · exact hstore
  · intro w item hw hp _ hlen
    constructor
    · intro w' hmem hrun
      rcases List.mem_or_eq_of_mem_set hmem with hold | rfl
      · exact hworkers w' hold hrun
      · simpa using Nat.lt_of_not_le hlen
    · exact hstore
  · intro w item hw hp _ hlen _
    constructor
    · intro w' hmem hrun
      rcases List.mem_or_eq_of_mem_set hmem with hold | rfl
      · exact hworkers w' hold hrun
      · simpa using hbs
    · intro b hb
      rcases List.mem_append.mp hb with hold | hnew
      · exact hstore b hold
      · rw [List.mem_singleton] at hnew
        subst hnew
        constructor
        · simp
        · have := hworkers w (List.getElem?_mem hw) hp
          simp only [List.length_append, List.length_singleton]
          omega
  · intro w item e hw hp _ hlen _
    constructor
    · intro w' hmem hrun
      rcases List.mem_or_eq_of_mem_set hmem with hold | rfl
      · exact hworkers w' hold hrun
      · cases hrun
    · exact hstore

theorem sizeInv_run (env : RunEnv) (bundle_size parallelism : Nat)
    (schedule : List Nat) (q0 : List FirefoxHistoryItem)
    (hbs : 1 ≤ bundle_size) :
    SizeInv bundle_size (run_pipeline env bundle_size parallelism schedule q0) := by
  refine run_preserve env bundle_size parallelism schedule q0 (SizeInv bundle_size)
    (fun s i h => sizeInv_step env bundle_size i s hbs h) ?_
  constructor
  · intro w hmem _
    simp only [initState, List.mem_map] at hmem
    obtain ⟨j, _, rfl⟩ := hmem
    rw [initWorker_acc]
    simpa using hbs
  · intro b hb
    simp [initState] at hb

/-! ## Provenance of worker-fatal errors -/

/-- Every error a worker can exit with stems either from a failed
`write_compressed_json` during a flush or from a failed
`Client::builder().build()`: per-url fetch failures never end a worker. -/
def ErrorProvenance (env : RunEnv) (s : PipelineState) : Prop :=
  ∀ w ∈ s.workers, ∀ e, w.phase = WorkerPhase.errored e →
    (∃ n, env.writeFail n = some e) ∨ (∃ j, env.clientBuild j = some e)

theorem errorProvenance_step (env : RunEnv) (bundle_size i : Nat) (s : PipelineState)
    (h : ErrorProvenance env s) : ErrorProvenance env (workerStep env bundle_size i s) := by
  refine workerStep_elim env bundle_size i s (ErrorProvenance env) h ?_ ?_ ?_ ?_ ?_ ?_
  · intro w hw _ _ _ w' hmem e' herr
    rcases List.mem_or_eq_of_mem_set hmem with hold | rfl
    · exact h w' hold e' herr
    · cases herr
  · intro w hw _ _ _ _ w' hmem e' herr
    rcases List.mem_or_eq_of_mem_set hmem with hold | rfl
    · exact h w' hold e' herr
    · cases herr
  · intro w e hw _ _ _ hwf w' hmem e' herr
    rcases List.mem_or_eq_of_mem_set hmem with hold | rfl
    · exact h w' hold e' herr
    · simp only [WorkerPhase.errored.injEq] at herr
      subst herr
      exact Or.inl ⟨s.clockReads, hwf⟩
  · intro w item hw _ _ _ w' hmem e' herr
    rcases List.mem_or_eq_of_mem_set hmem with hold | rfl
    · exact h w' hold e' herr
    · cases herr
  · intro w item hw _ _ _ _ w' hmem e' herr
    rcases List.mem_or_eq_of_mem_set hmem with hold | rfl
    · exact h w' hold e' herr
    · cases herr
  · intro w item e hw _ _ _ hwf w' hmem e' herr
    rcases List.mem_or_eq_of_mem_set hmem with hold | rfl
    · exact h w' hold e' herr
    · simp only [WorkerPhase.errored.injEq] at herr
      subst herr
      exact Or.inl ⟨s.clockReads + 1, hwf⟩

theorem errorProvenance_run (env : RunEnv) (bundle_size parallelism : Nat)
    (schedule : List Nat) (q0 : List FirefoxHistoryItem) :
    ErrorProvenance env (run_pipeline env bundle_size parallelism schedule q0) := by
  refine run_preserve env bundle_size parallelism schedule q0 (ErrorProvenance env)
    (fun s i h => errorProvenance_step env bundle_size i s h) ?_
  intro w hmem e herr
  simp only [initState, List.mem_map] at hmem
  obtain ⟨j, _, rfl⟩ := hmem
  unfold initWorker at herr
  cases hcb : env.clientBuild j with
  | none => rw [hcb] at herr; cases herr
  | some msg =>
    rw [hcb] at herr
    simp only [WorkerPhase.errored.injEq] at herr
    subst herr
    exact Or.inr ⟨j, hcb⟩

/-! ## Provenance of bundle names -/

/-- Every bundle name written so far is the clock value of a distinct
`Utc::now()` read: names can only collide if the clock itself returned the
same value at two distinct reads. -/
def NameInv (env : RunEnv) (s : PipelineState) : Prop :=
  ∃ idxs : List Nat, idxs.Nodup ∧ (∀ n ∈ idxs, n < s.clockReads) ∧
    s.store.map Bundle.name = idxs.map env.clock

theorem nameInv_step (env : RunEnv) (bundle_size i : Nat) (s : PipelineState)
    (h : NameInv env s) : NameInv env (workerStep env bundle_size i s) := by
  obtain ⟨idxs, hnodup, hbound, hmap⟩ := h
  refine workerStep_elim env bundle_size i s (NameInv env) ⟨idxs, hnodup, hbound, hmap⟩
    ?_ ?_ ?_ ?_ ?_ ?_
  · intro w _ _ _ _
    exact ⟨idxs, hnodup, hbound, hmap⟩
  · intro w _ _ _ _ _
    refine ⟨idxs ++ [s.clockReads], ?_, ?_, ?_⟩
    · rw [List.nodup_append]
      refine ⟨hnodup, List.nodup_singleton _, ?_⟩
      intro n hn hn'
      rw [List.mem_singleton] at hn'
      subst hn'
      exact absurd (hbound _ hn) (lt_irrefl _)
    · intro n hn
      rcases List.mem_append.mp hn with hold | hnew
      · exact Nat.lt_succ_of_lt (hbound n hold)
      · rw [List.mem_singleton] at hnew
        subst hnew
        exact Nat.lt_succ_self _
    · simp only [List.map_append, List.map_singleton, hmap]
  · intro w e _ _ _ _ _
    refine ⟨idxs, hnodup, ?_, hmap⟩
    intro n hn
    exact Nat.lt_succ_of_lt (hbound n hn)
  · intro w item _ _ _ _
    refine ⟨idxs, hnodup, ?_, hmap⟩
    intro n hn
    exact Nat.lt_succ_of_lt (hbound n hn)
  · intro w item _ _ _ _ _
    refine ⟨idxs ++ [s.clockReads + 1], ?_, ?_, ?_⟩
    · rw [List.nodup_append]
      refine ⟨hnodup, List.nodup_singleton _, ?_⟩
      intro n hn hn'
      rw [List.mem_singleton] at hn'
      subst hn'
      exact absurd (hbound _ hn) (by omega)
    · intro n hn
      show n < s.clockReads + 2
      rcases List.mem_append.mp hn with hold | hnew
      · have := hbound n hold
        omega
      · rw [List.mem_singleton] at hnew
        omega
    · simp only [List.map_append, List.map_singleton, hmap]
  · intro w item e _ _ _ _ _
    refine ⟨idxs, hnodup, ?_, hmap⟩
    intro n hn
    show n < s.clockReads + 2
    have := hbound n hn
    omega

theorem nameInv_run (env : RunEnv) (bundle_size parallelism : Nat)
    (schedule : List Nat) (q0 : List FirefoxHistoryItem) :
    NameInv env (run_pipeline env bundle_size parallelism schedule q0) := by
  refine run_preserve env bundle_size parallelism schedule q0 (NameInv env)
    (fun s i h => nameInv_step env bundle_size i s h) ?_
  exact ⟨[], List.nodup_nil, by simp, by simp [initState]⟩

/-! ## The store only ever grows -/

theorem store_mono_step (env : RunEnv) (bundle_size i : Nat) (s : PipelineState) :
    ∃ t, (workerStep env bundle_size i s).store = s.store ++ t := by
  refine workerStep_elim env bundle_size i s (fun x => ∃ t, x.store = s.store ++ t)
    ⟨[], by simp⟩ ?_ ?_ ?_ ?_ ?_ ?_
  · intro w _ _ _ _
    exact ⟨[], by simp⟩
  · intro w _ _ _ _ _
    exact ⟨[⟨env.clock s.clockReads, w.acc⟩], rfl⟩
  · intro w e _ _ _ _ _
    exact ⟨[], by simp⟩
  · intro w item _ _ _ _
    exact ⟨[], by simp⟩
  · intro w item _ _ _ _ _
    exact ⟨[⟨env.clock (s.clockReads + 1), w.acc ++ [poppedPage env s.clockReads item]⟩], rfl⟩
  · intro w item e _ _ _ _ _
    exact ⟨[], by simp⟩

theorem store_mono_foldl (env : RunEnv) (bundle_size : Nat) :
    ∀ (schedule : List Nat) (s : PipelineState),
      ∃ t, (schedule.foldl (fun s i => workerStep env bundle_size i s) s).store
        = s.store ++ t
  | [], s => ⟨[], by simp⟩
  | i :: rest, s => by
    obtain ⟨t1, h1⟩ := store_mono_step env bundle_size i s
    obtain ⟨t2, h2⟩ := store_mono_foldl env bundle_size rest (workerStep env bundle_size i s)
    exact ⟨t1 ++ t2, by rw [List.foldl_cons, h2, h1, List.append_assoc]⟩

/-- Bundles flushed by the time a run reaches some intermediate point are
still there, unchanged and in place, at every later point of the run. -/
theorem run_store_extends (env : RunEnv) (bundle_size parallelism : Nat)
    (schedule schedule2 : List Nat) (q0 : List FirefoxHistoryItem) :
    ∃ t, (run_pipeline env bundle_size parallelism (schedule ++ schedule2) q0).store
      = (run_pipeline env bundle_size parallelism schedule q0).store ++ t := by
  unfold run_pipeline
  rw [List.foldl_append]
  exact store_mono_foldl env bundle_size schedule2 _

/-! ## Lemmas about the startup scan -/

theorem mem_insert_url (urls : List String) (u x : String) :
    x ∈ insert_url urls u ↔ x ∈ urls ∨ x = u := by
  unfold insert_url
  by_cases h : u ∈ urls
  · simp only [if_pos h]
    constructor
    · exact Or.inl
    · rintro (hx | rfl)
      · exact hx
      · exact h
  · simp [if_neg h]

theorem mem_foldl_insert_url (pages : List DownloadedPage) :
    ∀ (urls : List String) (x : String),
      x ∈ pages.foldl (fun acc page => insert_url acc page.url) urls ↔
        x ∈ urls ∨ ∃ p ∈ pages, p.url = x := by
  induction pages with
  | nil => intro urls x; simp
  | cons p rest ih =>
    intro urls x
    rw [List.foldl_cons, ih (insert_url urls p.url) x, mem_insert_url]
    constructor
    · rintro ((hx | rfl) | ⟨q, hq, rfl⟩)
      · exact Or.inl hx
      · exact Or.inr ⟨p, List.mem_cons_self p rest, rfl⟩
      · exact Or.inr ⟨q, List.mem_cons_of_mem p hq, rfl⟩
    · rintro (hx | ⟨q, hq, rfl⟩)
      · exact Or.inl (Or.inl hx)
      · rcases List.mem_cons.mp hq with rfl | hq'
        · exact Or.inl (Or.inr rfl)
        · exact Or.inr ⟨q, hq', rfl⟩

theorem mem_scan_bundles :
    ∀ (reads : List (Except String (List DownloadedPage))) (urls : List String),
      scan_bundles reads = Except.ok urls →
      ∀ x, x ∈ urls ↔ ∃ pages, Except.ok pages ∈ reads ∧ ∃ p ∈ pages, p.url = x := by
  intro reads
  induction reads with
  | nil =>
    intro urls h x
    simp only [scan_bundles, Except.ok.injEq] at h
    subst h
    simp
  | cons read rest ih =>
    intro urls h x
    cases read with
    | error e => simp [scan_bundles] at h
    | ok pages =>
      simp only [scan_bundles] at h
      cases hrest : scan_bundles rest with
      | error e => rw [hrest] at h; cases h
      | ok urest =>
        rw [hrest] at h
        simp only [Except.ok.injEq] at h
        subst h
        rw [mem_foldl_insert_url pages urest x, ih urest hrest x]
        constructor
        · rintro (⟨ps, hmem, hp⟩ | ⟨p, hp, rfl⟩)
          · exact ⟨ps, List.mem_cons_of_mem _ hmem, hp⟩
          · exact ⟨pages, List.mem_cons_self _ _, p, hp, rfl⟩
        · rintro ⟨ps, hmem, hp⟩
          rcases List.mem_cons.mp hmem with heq | hmem'
          · injection heq with heq'
            subst heq'
            exact Or.inr hp
          · exact Or.inl ⟨ps, hmem', hp⟩

theorem scan_bundles_error :
    ∀ (reads : List (Except String (List DownloadedPage))),
      (∃ e, Except.error e ∈ reads) →
      ∃ e, scan_bundles reads = Except.error e ∧ Except.error e ∈ reads := by
  intro reads
  induction reads with
  | nil => rintro ⟨e, he⟩; cases he
  | cons read rest ih =>
    rintro ⟨e, he⟩
    cases read with
    | error e0 => exact ⟨e0, rfl, List.mem_cons_self _ _⟩
    | ok pages =>
      have hrest : ∃ e, Except.error e ∈ rest := by
        rcases List.mem_cons.mp he with heq | hmem
        · cases heq
        · exact ⟨e, hmem⟩
      obtain ⟨e', hscan, hmem⟩ := ih hrest
      refine ⟨e', ?_, List.mem_cons_of_mem _ hmem⟩
      simp only [scan_bundles, hscan]

theorem scan_bundles_append :
    ∀ (r1 r2 : List (Except String (List DownloadedPage))) (u1 u2 : List String),
      scan_bundles r1 = Except.ok u1 → scan_bundles r2 = Except.ok u2 →
      ∃ u, scan_bundles (r1 ++ r2) = Except.ok u ∧ ∀ x, x ∈ u ↔ x ∈ u1 ∨ x ∈ u2 := by
  intro r1
  induction r1 with
  | nil =>
    intro r2 u1 u2 h1 h2
    simp only [scan_bundles, Except.ok.injEq] at h1
    subst h1
    exact ⟨u2, h2, by simp⟩
  | cons read rest ih =>
    intro r2 u1 u2 h1 h2
    cases read with
    | error e => simp [scan_bundles] at h1
    | ok pages =>
      simp only [scan_bundles] at h1
      cases hrest : scan_bundles rest with
      | error e => rw [hrest] at h1; cases h1
      | ok urest =>
        rw [hrest] at h1
        simp only [Except.ok.injEq] at h1
        subst h1
        obtain ⟨u, hu, hiff⟩ := ih r2 urest u2 hrest h2
        refine ⟨pages.foldl (fun acc page => insert_url acc page.url) u, ?_, ?_⟩
        · simp only [List.cons_append, scan_bundles, List.append_eq, hu]
        · intro x
          rw [mem_foldl_insert_url pages u x, mem_foldl_insert_url pages urest x, hiff x,
            or_assoc, or_assoc]
          exact or_congr_right or_comm

theorem mem_storeUrls (store : List Bundle) (x : String) :
    x ∈ storeUrls store ↔ ∃ b ∈ store, ∃ p ∈ b.pages, p.url = x := by
  induction store with
  | nil => simp [storeUrls]
  | cons b rest ih =>
    have hcons : storeUrls (b :: rest) = pageUrls b.pages + storeUrls rest := by
      simp [storeUrls]
    rw [hcons, Multiset.mem_add, ih]
    constructor
    · rintro (hb | ⟨c, hc, hp⟩)
      · simp only [pageUrls, Multiset.mem_coe, List.mem_map] at hb
        obtain ⟨p, hp, rfl⟩ := hb
        exact ⟨b, List.mem_cons_self _ _, p, hp, rfl⟩
      · exact ⟨c, List.mem_cons_of_mem _ hc, hp⟩
    · rintro ⟨c, hc, p, hp, rfl⟩
      rcases List.mem_cons.mp hc with rfl | hc'
      · left
        simp only [pageUrls, Multiset.mem_coe, List.mem_map]
        exact ⟨p, hp, rfl⟩
      · exact Or.inr ⟨c, hc', p, hp, rfl⟩

theorem scan_bundles_all_ok :
    ∀ bundles : List (List DownloadedPage),
      ∃ u, scan_bundles (bundles.map Except.ok) = Except.ok u
  | [] => ⟨[], rfl⟩
  | b :: rest => by
    obtain ⟨u, hu⟩ := scan_bundles_all_ok rest
    exact ⟨b.foldl (fun acc page => insert_url acc page.url) u,
      by simp only [List.map_cons, scan_bundles, hu]⟩

/-- One `write_compressed_json` call writing bundle `b` into the raw-pages
directory: the source opens the timestamp-named path with `File::create`,
which truncates, so a write to an already-existing name replaces that
file's contents in place, losing the earlier pages; otherwise a new file
appears. -/
def writeFile (dir : List Bundle) (b : Bundle) : List Bundle :=
  if dir.any (fun c => c.name == b.name) then
    dir.map (fun c => if c.name = b.name then b else c)
  else
    dir ++ [b]

/-- The files actually present in the raw-pages directory after the run's
write events (`PipelineState.store`, in write order) have been performed:
on a timestamp collision the later flush overwrites the earlier bundle.
This is what the next invocation's startup scan reads back. -/
def directoryContents (store : List Bundle) : List Bundle :=
  store.foldl writeFile []

theorem foldl_writeFile_of_nodup :
    ∀ (rest dir : List Bundle),
      ((dir ++ rest).map Bundle.name).Nodup →
      rest.foldl writeFile dir = dir ++ rest
  | [], dir, _ => by simp
  | b :: rest, dir, h => by
    have hnotin : b.name ∉ dir.map Bundle.name := by
      intro hmem
      rw [List.map_append, List.nodup_append] at h
      exact h.2.2 hmem (by simp)
    have hany : dir.any (fun c => c.name == b.name) = false := by
      apply List.any_eq_false.mpr
      intro c hc
      simp only [beq_iff_eq]
      intro hEq
      exact hnotin (List.mem_map.mpr ⟨c, hc, hEq⟩)
    have hw : writeFile dir b = dir ++ [b] := by
      unfold writeFile
      rw [hany]
      simp
    have hnext : (((dir ++ [b]) ++ rest).map Bundle.name).Nodup := by
      rw [List.append_assoc, List.singleton_append]
      exact h
    rw [List.foldl_cons, hw, foldl_writeFile_of_nodup rest (dir ++ [b]) hnext,
      List.append_assoc, List.singleton_append]

/-- When no two write events share a name — e.g. under an injective clock —
no overwrite happens and the directory holds exactly the flush events. -/
theorem directoryContents_of_nodup (store : List Bundle)
    (h : (store.map Bundle.name).Nodup) : directoryContents store = store := by
  have hfold := foldl_writeFile_of_nodup store [] (by simpa using h)
  simpa [directoryContents] using hfold

theorem driver_result_ok :
    ∀ ws : List WorkerState, (∀ w ∈ ws, ∀ e, w.phase ≠ WorkerPhase.errored e) →
      driver_result ws = Except.ok () := by
  intro ws
  induction ws with
  | nil => intro _; rfl
  | cons w rest ih =>
    intro h
    cases hph : w.phase with
    | running =>
      simp only [driver_result, hph]
      exact ih (fun w' hw' e => h w' (List.mem_cons_of_mem _ hw') e)
    | finished =>
      simp only [driver_result, hph]
      exact ih (fun w' hw' e => h w' (List.mem_cons_of_mem _ hw') e)
    | errored e =>
      exact absurd hph (h w (List.mem_cons_self _ _) e)

theorem driver_result_first_error :
    ∀ (ws : List WorkerState) (i : Nat) (w : WorkerState) (e : String),
      ws[i]? = some w → w.phase = WorkerPhase.errored e →
      (∀ j, j < i → ∀ w', ws[j]? = some w' →
        ∀ e', w'.phase ≠ WorkerPhase.errored e') →
      driver_result ws = Except.error e := by
  intro ws
  induction ws with
  | nil => intro i w e hw _ _; simp at hw
  | cons w0 rest ih =>
    intro i w e hw hp hfirst
    cases i with
    | zero =>
      simp only [List.getElem?_cons_zero, Option.some.injEq] at hw
      subst hw
      simp only [driver_result, hp]
    | succ i =>
      simp only [List.getElem?_cons_succ] at hw
      have h0 : ∀ e', w0.phase ≠ WorkerPhase.errored e' :=
        fun e' => hfirst 0 (Nat.succ_pos i) w0 (by simp) e'
      have hrest : driver_result rest = Except.error e := by
        refine ih i w e hw hp ?_
        intro j hj w' hw' e'
        exact hfirst (j + 1) (Nat.succ_lt_succ hj) w' (by simpa using hw') e'
      cases hph : w0.phase with
      | running => simp only [driver_result, hph]; exact hrest
      | finished => simp only [driver_result, hph]; exact hrest
      | errored e0 => exact absurd hph (h0 e0)

/-! ## Claims -/

theorem statusErrorMessage_ne_empty (status : Nat) : statusErrorMessage status ≠ "" := by
  unfold statusErrorMessage
  intro h
  have hlen := congrArg String.length h
  rw [String.length_append] at hlen
  have h18 : ("HTTP status error " : String).length = 18 := rfl
  have h0 : ("" : String).length = 0 := rfl
  rw [h18, h0] at hlen
  omega

/-- C2 (amended): for every fetched target, a transport-level error
(including a timeout, with reqwest's non-empty message), a 4xx/5xx status,
or a non-HTML content type always yields a `Failure` with a non-empty
human-readable reason; a response whose status is 2xx, whose content type
is HTML and whose body is read successfully yields `Html` (Success) with
the exact response body text. (The original claim said "non-2xx" where the
code, via reqwest's `error_for_status`, only treats 4xx/5xx as errors.) -/
theorem C2_terminal_classification (now : Int) (url : String) :
    (∀ msg, msg ≠ "" →
      download_page now url (SendOutcome.error msg)
        = ⟨url, now, DownloadedPageContent.Failure msg⟩) ∧
    (∀ resp : HttpResponse, 400 ≤ resp.status → resp.status ≤ 599 →
      download_page now url (SendOutcome.response resp)
        = ⟨url, now, DownloadedPageContent.Failure (statusErrorMessage resp.status)⟩ ∧
      statusErrorMessage resp.status ≠ "") ∧
    (∀ resp : HttpResponse, ¬(400 ≤ resp.status ∧ resp.status ≤ 599) →
      is_html resp.content_type = false →
      download_page now url (SendOutcome.response resp)
        = ⟨url, now, DownloadedPageContent.Failure "Page is not HTML"⟩ ∧
      ("Page is not HTML" : String) ≠ "") ∧
    (∀ (resp : HttpResponse) (body : String),
      200 ≤ resp.status → resp.status ≤ 299 →
      is_html resp.content_type = true → resp.body = Except.ok body →
      download_page now url (SendOutcome.response resp)
        = ⟨url, now, DownloadedPageContent.Html body⟩) := by
  refine ⟨?_, ?_, ?_, ?_⟩
  · intro msg _
    rfl
  · intro resp h1 h2
    constructor
    · simp [download_page, try_download_page, error_for_status, h1, h2]
    · exact statusErrorMessage_ne_empty resp.status
  · intro resp h1 h2
    constructor
    · simp [download_page, try_download_page, error_for_status, h1, h2]
    · decide
  · intro resp body h1 h2 hhtml hbody
    have hns : ¬(400 ≤ resp.status ∧ resp.status ≤ 599) := by omega
    simp [download_page, try_download_page, error_for_status, hns, hhtml, hbody]

/-- C2 counterexample: a 304 (Not Modified) response is not 2xx, yet with an
HTML content type the code classifies it as a successful `Html` result, not
as a `Failure`: reqwest's `error_for_status` only rejects 4xx/5xx. -/
theorem C2_counterexample :
    ¬(200 ≤ (304 : Nat) ∧ (304 : Nat) ≤ 299) ∧
    download_page 0 "https://example.com/"
        (SendOutcome.response ⟨304, some "text/html", Except.ok "cached page"⟩)
      = ⟨"https://example.com/", 0, DownloadedPageContent.Html "cached page"⟩ :=
  ⟨by decide, by decide⟩

/-- Witness for C2: the amended classification evaluated on concrete
transport-error, 5xx, non-HTML and 2xx-HTML inputs. -/
theorem C2_witness :
    download_page 0 "u" (SendOutcome.error "connection timed out")
      = ⟨"u", 0, DownloadedPageContent.Failure "connection timed out"⟩ ∧
    download_page 7 "v" (SendOutcome.response ⟨503, some "text/html", Except.ok "x"⟩)
      = ⟨"v", 7, DownloadedPageContent.Failure (statusErrorMessage 503)⟩ ∧
    download_page 1 "w" (SendOutcome.response ⟨200, some "application/json", Except.ok "x"⟩)
      = ⟨"w", 1, DownloadedPageContent.Failure "Page is not HTML"⟩ ∧
    download_page 2 "x" (SendOutcome.response ⟨200, some "text/html; charset=utf-8", Except.ok "<p>hi</p>"⟩)
      = ⟨"x", 2, DownloadedPageContent.Html "<p>hi</p>"⟩ := by
  refine ⟨?_, ?_, ?_, ?_⟩
  · exact (C2_terminal_classification 0 "u").1 "connection timed out" (by decide)
  · exact ((C2_terminal_classification 7 "v").2.1
      ⟨503, some "text/html", Except.ok "x"⟩ (by decide) (by decide)).1
  · exact ((C2_terminal_classification 1 "w").2.2.1
      ⟨200, some "application/json", Except.ok "x"⟩ (by decide) (by decide)).1
  · exact (C2_terminal_classification 2 "x").2.2.2
      ⟨200, some "text/html; charset=utf-8", Except.ok "<p>hi</p>"⟩ "<p>hi</p>"
      (by decide) (by decide) (by decide) rfl

/-- Concrete environment for witnesses: "b" times out, everything else is a
200 HTML page; the client always builds; all writes succeed; the clock
ticks 0, 1, 2, ... -/
def wEnv : RunEnv :=
  { fetch := fun u =>
      if u = "b" then SendOutcome.error "operation timed out"
      else SendOutcome.response ⟨200, some "text/html", Except.ok ("page " ++ u)⟩,
    clientBuild := fun _ => none,
    writeFail := fun _ => none,
    clock := fun n => (n : Int) }

/-- Concrete three-target queue for witnesses. -/
def wItems : List FirefoxHistoryItem :=
  [⟨"a", none, none⟩, ⟨"b", none, none⟩, ⟨"c", none, none⟩]

/-- C4: any transport-level error during a fetch is caught and recorded as a
`Failure` outcome in the fetch result pushed for that target; the worker
does not exit with an error because of it — after the step it is still
`running` (its flush, if one is triggered, succeeding), the pop count grew
by one, and the failed result sits either in the worker's accumulator or in
the single bundle just flushed. -/
theorem C4_transport_error_absorbed (env : RunEnv) (bundle_size i : Nat)
    (s : PipelineState) (w : WorkerState) (item : FirefoxHistoryItem) (msg : String)
    (hw : s.workers[i]? = some w) (hp : w.phase = WorkerPhase.running)
    (hq : s.queue.getLast? = some item)
    (hfetch : env.fetch item.url = SendOutcome.error msg)
    (hflush : env.writeFail (s.clockReads + 1) = none) :
    (poppedPage env s.clockReads item).content = DownloadedPageContent.Failure msg ∧
    ∃ w', (workerStep env bundle_size i s).workers = s.workers.set i w' ∧
      w'.phase = WorkerPhase.running ∧
      (workerStep env bundle_size i s).popped = s.popped + 1 ∧
      (w'.acc = w.acc ++ [poppedPage env s.clockReads item] ∧
         (workerStep env bundle_size i s).store = s.store ∨
       w'.acc = [] ∧
         (workerStep env bundle_size i s).store
           = s.store ++ [⟨env.clock (s.clockReads + 1),
                          w.acc ++ [poppedPage env s.clockReads item]⟩]) := by
  constructor
  · simp [poppedPage, download_page, try_download_page, hfetch]
  · by_cases hlen : bundle_size ≤ w.acc.length + 1
    · rw [workerStep_pop_flush_ok hw hp hq hlen hflush]
      exact ⟨⟨[], WorkerPhase.running⟩, rfl, rfl, rfl, Or.inr ⟨rfl, rfl⟩⟩
    · rw [workerStep_pop_noflush hw hp hq hlen]
      exact ⟨⟨w.acc ++ [poppedPage env s.clockReads item], WorkerPhase.running⟩,
        rfl, rfl, rfl, Or.inl ⟨rfl, rfl⟩⟩

/-- Witness for C4: worker 0 pops the timing-out target "b" and keeps
running with the `Failure` result buffered. -/
theorem C4_witness :
    (poppedPage wEnv 0 ⟨"b", none, none⟩).content
      = DownloadedPageContent.Failure "operation timed out" ∧
    ∃ w', (workerStep wEnv 10 0 ⟨[⟨"b", none, none⟩], [⟨[], WorkerPhase.running⟩], [], 0, 0⟩).workers
        = [⟨[], WorkerPhase.running⟩].set 0 w' ∧
      w'.phase = WorkerPhase.running ∧
      (workerStep wEnv 10 0 ⟨[⟨"b", none, none⟩], [⟨[], WorkerPhase.running⟩], [], 0, 0⟩).popped
        = 0 + 1 ∧
      (w'.acc = [] ++ [poppedPage wEnv 0 ⟨"b", none, none⟩] ∧
         (workerStep wEnv 10 0 ⟨[⟨"b", none, none⟩], [⟨[], WorkerPhase.running⟩], [], 0, 0⟩).store
           = [] ∨
       w'.acc = [] ∧
         (workerStep wEnv 10 0 ⟨[⟨"b", none, none⟩], [⟨[], WorkerPhase.running⟩], [], 0, 0⟩).store
           = [] ++ [⟨wEnv.clock (0 + 1), [] ++ [poppedPage wEnv 0 ⟨"b", none, none⟩]⟩]) :=
  C4_transport_error_absorbed wEnv 10 0
    ⟨[⟨"b", none, none⟩], [⟨[], WorkerPhase.running⟩], [], 0, 0⟩
    ⟨[], WorkerPhase.running⟩ ⟨"b", none, none⟩ "operation timed out"
    rfl rfl rfl (by decide) rfl

/-- C3: when a running worker observes the empty queue it exits its loop and
performs the final flush: with a non-empty accumulator (and a succeeding
write) exactly one additional bundle is appended, containing all buffered
results, even when fewer than `bundle_size`; with an empty accumulator no
bundle is written at all. In both cases the worker finishes with a cleared
accumulator. -/
theorem C3_final_flush (env : RunEnv) (bundle_size i : Nat)
    (s : PipelineState) (w : WorkerState)
    (hw : s.workers[i]? = some w) (hp : w.phase = WorkerPhase.running)
    (hqnil : s.queue = []) (hok : env.writeFail s.clockReads = none) :
    (w.acc ≠ [] →
      (workerStep env bundle_size i s).store
        = s.store ++ [⟨env.clock s.clockReads, w.acc⟩] ∧
      (workerStep env bundle_size i s).workers
        = s.workers.set i ⟨[], WorkerPhase.finished⟩) ∧
    (w.acc = [] →
      (workerStep env bundle_size i s).store = s.store ∧
      (workerStep env bundle_size i s).workers
        = s.workers.set i ⟨[], WorkerPhase.finished⟩) := by
  have hq : s.queue.getLast? = none := List.getLast?_eq_none_iff.mpr hqnil
  constructor
  · intro hacc
    rw [workerStep_exit_flush_ok hw hp hq hacc hok]
    exact ⟨rfl, rfl⟩
  · intro hacc
    rw [workerStep_exit_empty_acc hw hp hq hacc]
    exact ⟨rfl, rfl⟩

/-- Witness for C3: one worker with a single buffered result and an empty
queue flushes exactly that bundle (threshold 500 notwithstanding); one with
an empty accumulator writes nothing. -/
theorem C3_witness :
    ((workerStep wEnv 500 0
        ⟨[], [⟨[⟨"a", 0, DownloadedPageContent.Html "page a"⟩], WorkerPhase.running⟩], [], 3, 1⟩).store
      = [] ++ [⟨wEnv.clock 3, [⟨"a", 0, DownloadedPageContent.Html "page a"⟩]⟩] ∧
     (workerStep wEnv 500 0
        ⟨[], [⟨[⟨"a", 0, DownloadedPageContent.Html "page a"⟩], WorkerPhase.running⟩], [], 3, 1⟩).workers
      = [⟨[⟨"a", 0, DownloadedPageContent.Html "page a"⟩], WorkerPhase.running⟩].set 0
          ⟨[], WorkerPhase.finished⟩) ∧
    ((workerStep wEnv 500 0 ⟨[], [⟨[], WorkerPhase.running⟩], [], 0, 0⟩).store = [] ∧
     (workerStep wEnv 500 0 ⟨[], [⟨[], WorkerPhase.running⟩], [], 0, 0⟩).workers
      = [⟨[], WorkerPhase.running⟩].set 0 ⟨[], WorkerPhase.finished⟩) := by
  constructor
  · exact (C3_final_flush wEnv 500 0
      ⟨[], [⟨[⟨"a", 0, DownloadedPageContent.Html "page a"⟩], WorkerPhase.running⟩], [], 3, 1⟩
      ⟨[⟨"a", 0, DownloadedPageContent.Html "page a"⟩], WorkerPhase.running⟩
      rfl rfl rfl rfl).1 (by decide)
  · exact (C3_final_flush wEnv 500 0 ⟨[], [⟨[], WorkerPhase.running⟩], [], 0, 0⟩
      ⟨[], WorkerPhase.running⟩ rfl rfl rfl rfl).2 rfl

/-- C9: with a positive bundle threshold, every bundle a run ever writes
holds at least 1 and at most `bundle_size` fetch results, whatever the
environment, the parallelism and the interleaving; and a flush of an empty
accumulator writes no file at all (and reads no clock). -/
theorem C9_bundle_size_bounds (env : RunEnv) (bundle_size parallelism : Nat)
    (schedule : List Nat) (q0 : List FirefoxHistoryItem)
    (hbs : 1 ≤ bundle_size) :
    (∀ b ∈ (run_pipeline env bundle_size parallelism schedule q0).store,
      1 ≤ b.pages.length ∧ b.pages.length ≤ bundle_size) ∧
    (∀ (store : List Bundle) (clockReads : Nat),
      write_downloaded_pages env [] store clockReads
        = (Except.ok (), [], store, clockReads)) := by
  constructor
  · exact (sizeInv_run env bundle_size parallelism schedule q0 hbs).2
  · intro store clockReads
    rfl

/-- Witness for C9: a two-worker run over three targets with threshold 2
only produces bundles of size 1 or 2. -/
theorem C9_witness :
    (∀ b ∈ (run_pipeline wEnv 2 2 [0, 1, 0, 0, 1] wItems).store,
      1 ≤ b.pages.length ∧ b.pages.length ≤ 2) ∧
    (∀ (store : List Bundle) (clockReads : Nat),
      write_downloaded_pages wEnv [] store clockReads
        = (Except.ok (), [], store, clockReads)) :=
  C9_bundle_size_bounds wEnv 2 2 [0, 1, 0, 0, 1] wItems (by decide)

/-- C1: for a completed run (P ≥ 1 workers, all of them finished) on a
duplicate-free url universe, the urls across all bundles written by the run
are exactly — as a multiset, so with neither loss nor duplication — the
universe minus the urls already present in bundles at startup (the queue
the run was started on); every popped target accounts for exactly one fetch
result in exactly one flushed bundle. -/
theorem C1_no_loss_no_duplication (env : RunEnv) (bundle_size parallelism : Nat)
    (schedule : List Nat) (history : List FirefoxHistoryItem)
    (downloaded_urls : List String)
    (hP : 1 ≤ parallelism)
    (hnodup : (history.map FirefoxHistoryItem.url).Nodup)
    (hdone : allFinished (run_pipeline env bundle_size parallelism schedule
      (history.filter (fun item => !(downloaded_urls.contains item.url))))) :
    storeUrls (run_pipeline env bundle_size parallelism schedule
        (history.filter (fun item => !(downloaded_urls.contains item.url)))).store
      = ↑((history.filter (fun item => !(downloaded_urls.contains item.url))).map
          FirefoxHistoryItem.url) ∧
    Multiset.Nodup (storeUrls (run_pipeline env bundle_size parallelism schedule
      (history.filter (fun item => !(downloaded_urls.contains item.url)))).store) := by
  have heq := run_store_urls env bundle_size parallelism schedule
    (history.filter (fun item => !(downloaded_urls.contains item.url))) hP hdone
  refine ⟨heq, ?_⟩
  rw [heq, Multiset.coe_nodup]
  exact List.Nodup.sublist
    (List.Sublist.map FirefoxHistoryItem.url (List.filter_sublist history)) hnodup

/-- Witness for C1: one worker, threshold 2, universe {a, b, c} with "a"
already downloaded; the completed run flushes exactly {b, c}, each once. -/
theorem C1_witness :
    storeUrls (run_pipeline wEnv 2 1 [0, 0, 0]
        (wItems.filter (fun item => !(["a"].contains item.url)))).store
      = ↑((wItems.filter (fun item => !(["a"].contains item.url))).map
          FirefoxHistoryItem.url) ∧
    Multiset.Nodup (storeUrls (run_pipeline wEnv 2 1 [0, 0, 0]
      (wItems.filter (fun item => !(["a"].contains item.url)))).store) :=
  C1_no_loss_no_duplication wEnv 2 1 [0, 0, 0] wItems ["a"]
    (by decide) (by decide) (by decide)

/-- C7: if reading or parsing any single existing bundle fails during the
startup scan, `download_pages` aborts the whole pipeline with that error
before building the queue, spawning any worker, popping any target or
writing any bundle (report has no final pipeline state at all). -/
theorem C7_startup_scan_failure_aborts
    (bundleReads : List (Except String (List DownloadedPage)))
    (historyRead : Except String (List FirefoxHistoryItem))
    (env : RunEnv) (parallelism bundle_size : Nat) (schedule : List Nat)
    (herr : ∃ e, Except.error e ∈ bundleReads) :
    ∃ e, Except.error e ∈ bundleReads ∧
      scan_bundles bundleReads = Except.error e ∧
      download_pages bundleReads historyRead env parallelism bundle_size schedule
        = ⟨Except.error e, none⟩ := by
  obtain ⟨e, hscan, hmem⟩ := scan_bundles_error bundleReads herr
  refine ⟨e, hmem, hscan, ?_⟩
  simp only [download_pages, hscan]

/-- Witness for C7: a run whose second bundle is corrupt aborts with that
error and never starts the pipeline. -/
theorem C7_witness :
    ∃ e, Except.error e ∈
        [Except.ok [(⟨"a", 0, DownloadedPageContent.Html "x"⟩ : DownloadedPage)],
         Except.error "corrupt zstd frame"] ∧
      scan_bundles
        [Except.ok [(⟨"a", 0, DownloadedPageContent.Html "x"⟩ : DownloadedPage)],
         Except.error "corrupt zstd frame"] = Except.error e ∧
      download_pages
        [Except.ok [(⟨"a", 0, DownloadedPageContent.Html "x"⟩ : DownloadedPage)],
         Except.error "corrupt zstd frame"]
        (Except.ok wItems) wEnv 4 500 [0, 1, 2, 3]
        = ⟨Except.error e, none⟩ :=
  C7_startup_scan_failure_aborts _ (Except.ok wItems) wEnv 4 500 [0, 1, 2, 3]
    ⟨"corrupt zstd frame", by decide⟩

/-- C10: invoked with parallelism 0 (and a successful startup scan and
history read), `download_pages` returns `Ok(())`, spawns no worker, pops
nothing, reads no clock and writes no bundle: the final state is exactly
the freshly built queue, fully unconsumed. -/
theorem C10_zero_parallelism
    (bundleReads : List (Except String (List DownloadedPage)))
    (historyRead : Except String (List FirefoxHistoryItem))
    (env : RunEnv) (bundle_size : Nat) (schedule : List Nat)
    (urls : List String) (history : List FirefoxHistoryItem)
    (hscan : scan_bundles bundleReads = Except.ok urls)
    (hhist : historyRead = Except.ok history) :
    download_pages bundleReads historyRead env 0 bundle_size schedule
      = ⟨Except.ok (),
         some ⟨history.filter (fun item => !(urls.contains item.url)),
               [], [], 0, 0⟩⟩ := by
  subst hhist
  have hrun : run_pipeline env bundle_size 0 schedule
      (history.filter (fun item => !(urls.contains item.url)))
      = initState env 0 (history.filter (fun item => !(urls.contains item.url))) := by
    refine run_preserve env bundle_size 0 schedule _
      (fun s => s = initState env 0 (history.filter
        (fun item => !(urls.contains item.url)))) ?_ rfl
    intro s i h
    subst h
    exact workerStep_no_worker (by simp [initState])
  simp only [download_pages, hscan]
  rw [hrun]
  simp [initState, driver_result]

/-- Witness for C10: parallelism 0 on the three-url universe returns ok and
leaves the whole queue in place. -/
theorem C10_witness :
    download_pages [] (Except.ok wItems) wEnv 0 500 [0, 1, 0]
      = ⟨Except.ok (),
         some ⟨wItems.filter (fun item => !(([] : List String).contains item.url)),
               [], [], 0, 0⟩⟩ :=
  C10_zero_parallelism [] (Except.ok wItems) wEnv 500 [0, 1, 0] [] wItems rfl rfl

/-- C5 (amended): after a completed run (P ≥ 1, all workers finished)
started against the already-downloaded set `urls1` of the existing bundles,
PROVIDED no two `Utc::now()` reads of the run returned the same value
(injective clock, so no flush overwrote another's file), re-running the
startup scan over the old bundles plus the files now in the directory
yields a set covering every history url, so the second run's work queue is
the empty list; and a pipeline started on an empty queue — any environment,
parallelism and interleaving — performs zero fetches, reads no clock, pops
nothing and writes no bundle. The original unconditional claim fails when
flushes of the first run collide on a timestamp: the overwritten bundle's
urls are missing from the rescan and get refetched. -/
theorem C5_idempotent_resumption (env : RunEnv) (bundle_size parallelism : Nat)
    (schedule : List Nat)
    (bundleReads : List (Except String (List DownloadedPage)))
    (history : List FirefoxHistoryItem) (urls1 : List String)
    (hscan : scan_bundles bundleReads = Except.ok urls1)
    (hP : 1 ≤ parallelism)
    (hclock : Function.Injective env.clock)
    (hdone : allFinished (run_pipeline env bundle_size parallelism schedule
      (history.filter (fun item => !(urls1.contains item.url))))) :
    ∃ urls2,
      scan_bundles (bundleReads ++
          ((directoryContents (run_pipeline env bundle_size parallelism schedule
            (history.filter (fun item => !(urls1.contains item.url)))).store).map
            (fun b => Except.ok b.pages)))
        = Except.ok urls2 ∧
      history.filter (fun item => !(urls2.contains item.url)) = [] ∧
      ∀ (env2 : RunEnv) (bundle_size2 parallelism2 : Nat) (schedule2 : List Nat),
        (run_pipeline env2 bundle_size2 parallelism2 schedule2 []).store = [] ∧
        (run_pipeline env2 bundle_size2 parallelism2 schedule2 []).popped = 0 ∧
        (run_pipeline env2 bundle_size2 parallelism2 schedule2 []).clockReads = 0 ∧
        (run_pipeline env2 bundle_size2 parallelism2 schedule2 []).queue = [] := by
  set q0 := history.filter (fun item => !(urls1.contains item.url)) with hq0
  set final := run_pipeline env bundle_size parallelism schedule q0 with hfinal
  have hnames : (final.store.map Bundle.name).Nodup := by
    obtain ⟨idxs, hnodup, _, hmap⟩ := nameInv_run env bundle_size parallelism schedule q0
    rw [hfinal, hmap]
    exact hnodup.map hclock
  have hdir : directoryContents final.store = final.store :=
    directoryContents_of_nodup final.store hnames
  rw [hdir]
  have hconv : (final.store.map Bundle.pages).map
        (Except.ok : List DownloadedPage → Except String (List DownloadedPage))
      = final.store.map (fun b => (Except.ok b.pages : Except String (List DownloadedPage))) := by
    rw [List.map_map]
    rfl
  obtain ⟨unew, hunew⟩ := scan_bundles_all_ok (final.store.map Bundle.pages)
  rw [hconv] at hunew
  obtain ⟨urls2, happ, hiff⟩ := scan_bundles_append bundleReads _ urls1 unew hscan hunew
  refine ⟨urls2, happ, ?_, ?_⟩
  · apply List.filter_eq_nil_iff.mpr
    intro item hitem
    have hmem2 : item.url ∈ urls2 := by
      cases hc : urls1.contains item.url with
      | false =>
        have hq : item ∈ q0 := by
          rw [hq0]
          refine List.mem_filter.mpr ⟨hitem, ?_⟩
          rw [hc]
          rfl
        have hurl : item.url ∈ storeUrls final.store := by
          rw [hfinal, run_store_urls env bundle_size parallelism schedule q0 hP hdone]
          simp only [Multiset.mem_coe, List.mem_map]
          exact ⟨item, hq, rfl⟩
        rw [mem_storeUrls] at hurl
        obtain ⟨b, hb, p, hp, hpurl⟩ := hurl
        apply (hiff item.url).mpr
        right
        rw [mem_scan_bundles _ unew hunew item.url]
        exact ⟨b.pages, List.mem_map.mpr ⟨b, hb, rfl⟩, p, hp, hpurl⟩
      | true =>
        apply (hiff item.url).mpr
        left
        simpa using hc
    have hctrue : urls2.contains item.url = true := by simpa using hmem2
    simp [hctrue]
    exact hmem2
  · intro env2 bundle_size2 parallelism2 schedule2
    obtain ⟨hqe, hst, hcr, hpo, _⟩ :=
      run_pipeline_empty_queue env2 bundle_size2 parallelism2 schedule2
    exact ⟨hst, hpo, hcr, hqe⟩

/-- Environment refuting C5 as stated: the clock frozen on one nanosecond
value, so both flushes of the first run write the same file name and the
second `File::create` overwrites the first bundle. -/
def cexEnvC5 : RunEnv :=
  { fetch := fun _ => SendOutcome.error "connection refused",
    clientBuild := fun _ => none,
    writeFail := fun _ => none,
    clock := fun _ => 42 }

/-- Two-target universe for the C5 counterexample. -/
def cexQueueC5 : List FirefoxHistoryItem :=
  [⟨"a", none, none⟩, ⟨"b", none, none⟩]

/-- C5 counterexample: with a frozen clock and bundle threshold 1, the
first run completes — every worker finished and both urls were flushed —
but its second flush overwrites its first file: the directory afterwards
holds only "a", the rescan misses "b", the second run's work queue is
non-empty, and a second run does pop (fetch) a target, refuting the
unconditional "zero fetches on the second run". -/
theorem C5_counterexample :
    allFinished (run_pipeline cexEnvC5 1 1 [0, 0, 0] cexQueueC5) ∧
    (run_pipeline cexEnvC5 1 1 [0, 0, 0] cexQueueC5).store.map Bundle.name = [42, 42] ∧
    (directoryContents (run_pipeline cexEnvC5 1 1 [0, 0, 0] cexQueueC5).store).map
      (fun b => b.pages.map DownloadedPage.url) = [["a"]] ∧
    scan_bundles
        ((directoryContents (run_pipeline cexEnvC5 1 1 [0, 0, 0] cexQueueC5).store).map
          (fun b => Except.ok b.pages))
      = Except.ok ["a"] ∧
    cexQueueC5.filter (fun item => !((["a"] : List String).contains item.url))
      = [⟨"b", none, none⟩] ∧
    (run_pipeline cexEnvC5 1 1 [0]
      (cexQueueC5.filter (fun item => !((["a"] : List String).contains item.url)))).popped
      = 1 :=
  ⟨by decide, by decide, by decide, by decide, by decide, by decide⟩

/-- Witness for C5: after the one-worker run that downloads \x7bb, c\x7d (with
"a" already in a bundle) under the strictly increasing witness clock,
rescanning everything leaves an empty second queue, and runs on the empty
queue do nothing. -/
theorem C5_witness :
    ∃ urls2,
      scan_bundles ([Except.ok [(⟨"a", 0, DownloadedPageContent.Html "x"⟩ : DownloadedPage)]] ++
          ((directoryContents (run_pipeline wEnv 2 1 [0, 0, 0]
            (wItems.filter (fun item => !((["a"] : List String).contains item.url)))).store).map
            (fun b => Except.ok b.pages)))
        = Except.ok urls2 ∧
      wItems.filter (fun item => !(urls2.contains item.url)) = [] ∧
      ∀ (env2 : RunEnv) (bundle_size2 parallelism2 : Nat) (schedule2 : List Nat),
        (run_pipeline env2 bundle_size2 parallelism2 schedule2 []).store = [] ∧
        (run_pipeline env2 bundle_size2 parallelism2 schedule2 []).popped = 0 ∧
        (run_pipeline env2 bundle_size2 parallelism2 schedule2 []).clockReads = 0 ∧
        (run_pipeline env2 bundle_size2 parallelism2 schedule2 []).queue = [] :=
  C5_idempotent_resumption wEnv 2 1 [0, 0, 0]
    [Except.ok [(⟨"a", 0, DownloadedPageContent.Html "x"⟩ : DownloadedPage)]]
    wItems ["a"] (by decide) (by decide)
    (by intro a b h; simp only [wEnv] at h; exact_mod_cast h) (by decide)

/-- C6 (amended): the driver waits for every spawned worker and propagates
the error of the first worker, in spawn/join order, that exited with one
(returning `Ok` when none did); bundles flushed at any intermediate point
of a run are still present, in place, at every later point (no rollback);
and every worker-fatal error stems from a failed flush write OR from a
failed HTTP-client construction — the original claim omitted the latter
(`Client::builder().build()?` at the top of `download_pages_thread`). -/
theorem C6_driver_join_and_first_error (env : RunEnv)
    (bundle_size parallelism : Nat) (schedule schedule2 : List Nat)
    (q0 : List FirefoxHistoryItem) :
    (∀ ws : List WorkerState, (∀ w ∈ ws, ∀ e, w.phase ≠ WorkerPhase.errored e) →
      driver_result ws = Except.ok ()) ∧
    (∀ (ws : List WorkerState) (i : Nat) (w : WorkerState) (e : String),
      ws[i]? = some w → w.phase = WorkerPhase.errored e →
      (∀ j, j < i → ∀ w', ws[j]? = some w' →
        ∀ e', w'.phase ≠ WorkerPhase.errored e') →
      driver_result ws = Except.error e) ∧
    (∃ t, (run_pipeline env bundle_size parallelism (schedule ++ schedule2) q0).store
        = (run_pipeline env bundle_size parallelism schedule q0).store ++ t) ∧
    (∀ w ∈ (run_pipeline env bundle_size parallelism schedule q0).workers,
      ∀ e, w.phase = WorkerPhase.errored e →
        (∃ n, env.writeFail n = some e) ∨ (∃ j, env.clientBuild j = some e)) :=
  ⟨driver_result_ok,
   fun ws i w e hw hp hfirst => driver_result_first_error ws i w e hw hp hfirst,
   run_store_extends env bundle_size parallelism schedule schedule2 q0,
   errorProvenance_run env bundle_size parallelism schedule q0⟩

/-- Environment refuting C6 as stated: the HTTP client construction itself
fails, while every flush write would succeed and the startup scan and
history read succeed too. -/
def cexEnvC6 : RunEnv :=
  { fetch := fun _ => SendOutcome.error "unreachable",
    clientBuild := fun _ => some "TLS backend initialization failed",
    writeFail := fun _ => none,
    clock := fun _ => 0 }

/-- C6 counterexample: `download_pages` returns a fatal error even though no
flush ever failed and the queue was constructed successfully — the error is
a worker's HTTP-client construction failure, a third fatal-error source the
claim's "only flush failures and queue-construction failures" excludes. -/
theorem C6_counterexample :
    (download_pages [] (Except.ok wItems) cexEnvC6 1 500 [0]).result
      = Except.error "TLS backend initialization failed" ∧
    cexEnvC6.writeFail = (fun _ => none) ∧
    scan_bundles [] = Except.ok [] :=
  ⟨by decide, rfl, rfl⟩

/-- Witness for C6: the driver conclusions instantiated on concrete worker
lists and a concrete extended run. -/
theorem C6_witness :
    driver_result [⟨[], WorkerPhase.finished⟩] = Except.ok () ∧
    driver_result [⟨[], WorkerPhase.finished⟩, ⟨[], WorkerPhase.errored "disk full"⟩]
      = Except.error "disk full" ∧
    (∃ t, (run_pipeline wEnv 2 1 ([0, 0] ++ [0, 0]) wItems).store
        = (run_pipeline wEnv 2 1 [0, 0] wItems).store ++ t) := by
  obtain ⟨hok, hfirst, hext, _⟩ :=
    C6_driver_join_and_first_error wEnv 2 1 [0, 0] [0, 0] wItems
  refine ⟨?_, ?_, hext⟩
  · apply hok
    intro w hw e
    rw [List.mem_singleton] at hw
    subst hw
    simp
  · apply hfirst _ 1 ⟨[], WorkerPhase.errored "disk full"⟩ "disk full" (by simp) rfl
    intro j hj w' hw' e'
    have hj0 : j = 0 := by omega
    subst hj0
    simp only [List.getElem?_cons_zero, Option.some.injEq] at hw'
    subst hw'
    simp

/-- C8 (amended): every flush names its new bundle file with the
`Utc::now().timestamp_nanos()` value it reads, distinct flushes of a run
using distinct clock reads; therefore — PROVIDED the clock never yields the
same value at two distinct reads — no two flushes of a run produce the same
name and no flush overwrites a bundle written earlier in the run. The
original unconditional claim is false: the code does nothing to force
distinctness when two flushes observe the same nanosecond timestamp. -/
theorem C8_unique_names_of_injective_clock (env : RunEnv)
    (bundle_size parallelism : Nat) (schedule : List Nat)
    (q0 : List FirefoxHistoryItem)
    (hclock : Function.Injective env.clock) :
    ((run_pipeline env bundle_size parallelism schedule q0).store.map Bundle.name).Nodup := by
  obtain ⟨idxs, hnodup, _, hmap⟩ := nameInv_run env bundle_size parallelism schedule q0
  rw [hmap]
  exact hnodup.map hclock

/-- Environment refuting C8 as stated: a clock frozen on one nanosecond
value, as two concurrent flushes racing within one clock tick would see. -/
def cexEnvC8 : RunEnv :=
  { fetch := fun _ => SendOutcome.error "refused",
    clientBuild := fun _ => none,
    writeFail := fun _ => none,
    clock := fun _ => 1700000000000000000 }

/-- C8 counterexample: with bundle threshold 1 and two targets, one worker
performs two flushes that both read the same timestamp, so the run writes
two bundle files with the same name — the second `File::create` would
overwrite the first. -/
theorem C8_counterexample :
    ((run_pipeline cexEnvC8 1 1 [0, 0, 0]
        [⟨"a", none, none⟩, ⟨"b", none, none⟩]).store.map Bundle.name)
      = [1700000000000000000, 1700000000000000000] ∧
    ¬ ((run_pipeline cexEnvC8 1 1 [0, 0, 0]
        [⟨"a", none, none⟩, ⟨"b", none, none⟩]).store.map Bundle.name).Nodup :=
  ⟨by decide, by decide⟩

/-- Witness for C8: under the strictly increasing witness clock the names of
the two bundles of a completed run are distinct. -/
theorem C8_witness :
    ((run_pipeline wEnv 2 1 [0, 0, 0, 0] wItems).store.map Bundle.name).Nodup :=
  C8_unique_names_of_injective_clock wEnv 2 1 [0, 0, 0, 0] wItems
    (by intro a b h; simp only [wEnv] at h; exact_mod_cast h)

end MindSearch